import Mathlib

/-!
Verification of the `StatisticsVolume` pipeline
(`clinica/pipelines/statistics_volume/statistics_volume_pipeline.py`).

Strings are modelled as `List Char` (Python `str`).  The `DataSink`
regexp substitutions installed by `_build_output_node` are modelled by a
small pattern language that covers exactly the regular-expression shapes
occurring in the source:

  * every pattern is a sequence of literal characters and `.` wildcards,
    optionally followed by a single greedy `(.*)` capture group, which is
    itself optionally followed by a further literal/wildcard tail
    (`(.*).nii` in the regression-coefficient rule) or by a bare `.*`
    (the tsv rule);
  * replacements are literal text with at most one `\1` back reference.

`substRule` implements Python `re.sub` semantics for those shapes:
leftmost match, greedy quantifiers, global (all non-overlapping
occurrences, scanning left to right), `.` matching any character (paths
contain no newline).
-/

namespace StatisticsVolume

/-- One token of a regular-expression pattern: a literal character or the
`.` wildcard. -/
inductive Tok
  | lit (c : Char)
  | any
deriving DecidableEq, Repr

/-- Whether a single pattern token matches a character. -/
def tokMatch : Tok → Char → Bool
  | Tok.lit c, d => c = d
  | Tok.any, _ => true

/-- Interpret a piece of regex source text as a token list: `.` is the
wildcard, every other character occurring in the source's patterns is
literal (the paths involved contain no other regex metacharacter). -/
def regexToks (s : List Char) : List Tok :=
  s.map (fun c => if c = '.' then Tok.any else Tok.lit c)

/-- `matchesFront p s`: the token list `p` matches an initial segment of
`s`. -/
def matchesFront : List Tok → List Char → Bool
  | [], _ => true
  | _ :: _, [] => false
  | t :: ts, c :: cs => tokMatch t c && matchesFront ts cs

/-- Index of the leftmost position of `s` at which `p` matches (Python
`re.search` position). -/
def findFrom (p : List Tok) : List Char → Option Nat
  | [] => if matchesFront p [] then some 0 else none
  | c :: cs =>
    if matchesFront p (c :: cs) then some 0
    else (findFrom p cs).map (· + 1)

/-- Scanner for the global substitution of a groupless pattern
`p :: ps`: the first argument counts characters of an already-found
match still to be skipped; at skip `0`, each non-overlapping occurrence
of the pattern, scanning left to right, is replaced by `rep`.  Mirrors
`re.sub` for the RPV and mask rules. -/
def substExactAux (p : Tok) (ps : List Tok) (rep : List Char) :
    Nat → List Char → List Char
  | _, [] => []
  | k + 1, _ :: cs => substExactAux p ps rep k cs
  | 0, c :: cs =>
    if matchesFront (p :: ps) (c :: cs) then
      rep ++ substExactAux p ps rep ps.length cs
    else
      c :: substExactAux p ps rep 0 cs

/-- Global substitution of a groupless pattern (skip counter `0`). -/
def substExact (p : Tok) (ps : List Tok) (rep : List Char)
    (s : List Char) : List Char :=
  substExactAux p ps rep 0 s

/-- Largest index of `s` at which `suf` matches (the greedy `(.*)` hands
as little as possible to the suffix that follows it). -/
def lastSuf (suf : List Tok) : List Char → Option Nat
  | [] => if matchesFront suf [] then some 0 else none
  | c :: cs =>
    match lastSuf suf cs with
    | some k => some (k + 1)
    | none => if matchesFront suf (c :: cs) then some 0 else none

/-- Scanner for the global substitution of a pattern
`pre(.*)suf → rpre\1rsuf` (the regression-coefficient rule): at each
occurrence of `pre` the greedy group captures up to the last later
position where `suf` matches; if `suf` matches nowhere after `pre`, the
overall pattern does not match at this position and scanning resumes
one character later.  The first argument again counts characters of a
found match still to be skipped. -/
def substCapSufAux (p : Tok) (ps suf : List Tok) (rpre rsuf : List Char) :
    Nat → List Char → List Char
  | _, [] => []
  | k + 1, _ :: cs => substCapSufAux p ps suf rpre rsuf k cs
  | 0, c :: cs =>
    if matchesFront (p :: ps) (c :: cs) then
      match lastSuf suf (cs.drop ps.length) with
      | some k =>
        rpre ++ (cs.drop ps.length).take k ++ rsuf ++
          substCapSufAux p ps suf rpre rsuf (ps.length + k + suf.length) cs
      | none => c :: substCapSufAux p ps suf rpre rsuf 0 cs
    else
      c :: substCapSufAux p ps suf rpre rsuf 0 cs

/-- Global substitution of a `pre(.*)suf` pattern (skip counter `0`). -/
def substCapSuf (p : Tok) (ps suf : List Tok) (rpre rsuf : List Char)
    (s : List Char) : List Char :=
  substCapSufAux p ps suf rpre rsuf 0 s

/-- A regexp substitution, in the shapes used by `_build_output_node`:

* `strip pre rep` — source pattern `pre(.*)`, replacement `rep\1`;
* `renameExact pat rep` — groupless source pattern `pat`, literal
  replacement `rep`;
* `collapse pre rep` — source pattern `pre.*`, literal replacement
  `rep`;
* `capSuf pre suf rpre rsuf` — source pattern `pre(.*)suf`, replacement
  `rpre\1rsuf`. -/
inductive RSub
  | strip (pre : List Tok) (rep : List Char)
  | renameExact (pat : List Tok) (rep : List Char)
  | collapse (pre : List Tok) (rep : List Char)
  | capSuf (pre suf : List Tok) (rpre rsuf : List Char)
deriving DecidableEq, Repr

/-- `re.sub(pattern, repl, s)` for one substitution rule.  For `strip`
and `collapse` the trailing greedy `.*` consumes the rest of the string,
so the single leftmost match is the global result. -/
def substRule : RSub → List Char → List Char
  | RSub.strip pre rep, s =>
    match findFrom pre s with
    | some i => s.take i ++ rep ++ s.drop (i + pre.length)
    | none => s
  | RSub.renameExact pat rep, s =>
    match pat with
    | [] => s
    | p :: ps => substExact p ps rep s
  | RSub.collapse pre rep, s =>
    match findFrom pre s with
    | some i => s.take i ++ rep
    | none => s
  | RSub.capSuf pre suf rpre rsuf, s =>
    match pre with
    | [] => s
    | p :: ps => substCapSuf p ps suf rpre rsuf s

/-- `nipype.DataSink` applies its `regexp_substitutions` in declared
order, each `re.sub` acting on the result of the previous one. -/
def applyRules (rs : List RSub) (s : List Char) : List Char :=
  rs.foldl (fun t r => substRule r t) s

/-- Number of `/` characters in a path. -/
def countSlash : List Char → Nat
  | [] => 0
  | c :: s => countSlash s + if c = '/' then 1 else 0

/-- Number of literal-`/` tokens in a pattern. -/
def litSlash : List Tok → Nat
  | [] => 0
  | t :: p => litSlash p + if t = Tok.lit '/' then 1 else 0

/-- The pattern tokens a rule needs to find before it can rewrite
anything (for `capSuf`, the part before the group). -/
def preOf : RSub → List Tok
  | RSub.strip pre _ => pre
  | RSub.renameExact pat _ => pat
  | RSub.collapse pre _ => pre
  | RSub.capSuf pre _ _ _ => pre

/-- Python truthiness of the `full_width_at_half_maximum` parameter
(`None` and `0` are falsy, every other int is truthy); this is the guard
`if self.parameters["full_width_at_half_maximum"]:` on line 191. -/
def pyTruthyFwhm : Option Int → Bool
  | none => false
  | some n => n != 0

/-- Rendering of the smoothing width inside the regression-coefficient
destination template (`f"..._fwhm-{...}..."`). -/
def fwhmStr : Option Int → List Char
  | none => "None".toList
  | some n => (toString n).toList

/-- `base_dir` of `_build_output_node` (lines 181-185):
`group_directory / "statistics_volume" / f"group_comparison_measure-{measure_label}"`. -/
def base_dir (group_directory measure_label : List Char) : List Char :=
  group_directory ++ "/statistics_volume/group_comparison_measure-".toList
    ++ measure_label

/-- The eight regexp substitutions of `_build_output_node`
(lines 192-237), in source order, translated rule by rule:

1. t-stat maps: `base/spm_results_analysis_./(.*) → base/\1`;
2. contrasts: `base/contrasts/(.*) → base/\1`;
3. resels per voxels:
   `base/resels_per_voxels/resels_per_voxel.nii → base/<gid>_RPV.nii`;
4. mask (note the trailing space of `"mask "` in the source):
   `base/mask /included_voxel_mask.nii → base/<gid>_mask.nii`;
5. variance of error: `base/variance_of_error/(.*) → base/\1`;
6. tsv file: `base/tsv_file/.* → base/../<gid>_participants.tsv`;
7. figures: `base/figures/(.*) → base/\1`;
8. regression coefficient: `base/regression_coeff/(.*).nii →
   base/<gid>_covariate-\1_measure-<measure>_fwhm-<w>_regressionCoefficient.nii`. -/
def rules_list (base gid measure : List Char) (fwhm : Option Int) : List RSub :=
  [ RSub.strip (regexToks (base ++ "/spm_results_analysis_./".toList))
      (base ++ "/".toList),
    RSub.strip (regexToks (base ++ "/contrasts/".toList))
      (base ++ "/".toList),
    RSub.renameExact (regexToks (base ++ "/resels_per_voxels/resels_per_voxel.nii".toList))
      (base ++ "/".toList ++ gid ++ "_RPV.nii".toList),
    RSub.renameExact (regexToks (base ++ "/mask /included_voxel_mask.nii".toList))
      (base ++ "/".toList ++ gid ++ "_mask.nii".toList),
    RSub.strip (regexToks (base ++ "/variance_of_error/".toList))
      (base ++ "/".toList),
    RSub.collapse (regexToks (base ++ "/tsv_file/".toList))
      (base ++ "/../".toList ++ gid ++ "_participants.tsv".toList),
    RSub.strip (regexToks (base ++ "/figures/".toList))
      (base ++ "/".toList),
    RSub.capSuf (regexToks (base ++ "/regression_coeff/".toList))
      (regexToks ".nii".toList)
      (base ++ "/".toList ++ gid ++ "_covariate-".toList)
      ("_measure-".toList ++ measure ++ "_fwhm-".toList ++ fwhmStr fwhm
        ++ "_regressionCoefficient.nii".toList) ]

/-- The substitutions actually installed on the datasink: the whole list
is guarded by the truthiness of `full_width_at_half_maximum`
(line 191); when the guard is false, `regexp_substitutions` is never
set, i.e. no rewrite happens at all. -/
def regexp_substitutions (base gid measure : List Char) (fwhm : Option Int) :
    List RSub :=
  if pyTruthyFwhm fwhm then rules_list base gid measure fwhm else []

/-- The nine sub-directories of `base_dir` in which the datasink places
produced files, one per connected datasink port (lines 239-264):
`spm_results_analysis_1`, `spm_results_analysis_2`, `figures`,
`variance_of_error`, `resels_per_voxels`, `mask`, `regression_coeff`,
`contrasts` and `tsv_file`. -/
def produced_dirs : List String :=
  ["spm_results_analysis_1", "spm_results_analysis_2", "contrasts",
   "resels_per_voxels", "mask", "variance_of_error", "tsv_file",
   "figures", "regression_coeff"]


/-! ### Errors, parameters and input selection -/

/-- The Python exceptions raised by the modelled code paths
(`ClinicaException` is the clinica base exception; `AttributeError` is
raised by attribute access on an object lacking the attribute). -/
inductive PyErr
  | keyError (msg : String)
  | valueError (msg : String)
  | attributeError (msg : String)
  | clinicaException (msg : String)
  | indexError (msg : String)
deriving DecidableEq, Repr

/-- Value of the `acq_label` / `suvr_reference_region` parameters: the
Python `None`, a raw string, or a coerced domain-enumeration member
whose `.value` is the underlying string. -/
inductive EnumOrNone
  | null
  | raw (s : String)
  | enum (s : String)
deriving DecidableEq, Repr

/-- Python truthiness of such a value (`None` and `""` are falsy; enum
members are truthy). -/
def truthyE : EnumOrNone → Bool
  | EnumOrNone.null => false
  | EnumOrNone.raw s => s ≠ ""
  | EnumOrNone.enum _ => true

/-- Python attribute access `x.value`: defined on enum members, an
`AttributeError` on `None` or on a plain string. -/
def dotValue : EnumOrNone → Except PyErr String
  | EnumOrNone.enum s => Except.ok s
  | EnumOrNone.null =>
    Except.error (PyErr.attributeError
      "'NoneType' object has no attribute 'value'")
  | EnumOrNone.raw _ =>
    Except.error (PyErr.attributeError
      "'str' object has no attribute 'value'")

/-- Modelled from the spec: coercion of a raw string to its domain
enumeration (`Tracer` / `SUVRReferenceRegion` live in
clinica.utils.pet, not under src/).  The source coerces only truthy
values (`if self.parameters["acq_label"]: ... = Tracer(...)`); an
unrecognized value fails with the enumeration constructor's
`ValueError` (the spec's UnknownEnumValueError).  The accepted member
set is abstract: `valid` decides membership and `enumName` names the
enumeration in the error message. -/
def coerceEnum (valid : String → Bool) (enumName : String) :
    EnumOrNone → Except PyErr EnumOrNone
  | EnumOrNone.raw s =>
    if s = "" then Except.ok (EnumOrNone.raw s)
    else if valid s then Except.ok (EnumOrNone.enum s)
    else Except.error (PyErr.valueError
      ("'" ++ s ++ "' is not a valid " ++ enumName))
  | e => Except.ok e

/-- Whether the truthiness-guarded coercion of a value succeeds: the
value is absent/falsy (not coerced), already a member, or an accepted
raw string. -/
def coerceSucceeds (valid : String → Bool) : EnumOrNone → Bool
  | EnumOrNone.raw s => s = "" || valid s
  | _ => true

/-- The value a successful coercion produces (independent of the
member set once it succeeds). -/
def coerceVal : EnumOrNone → EnumOrNone
  | EnumOrNone.raw s => if s = "" then EnumOrNone.raw s else EnumOrNone.enum s
  | e => e

/-- The pipeline parameter bag before `_check_pipeline_parameters`:
`none` in an outer `Option` means the key is absent from the mapping
(distinct from a key that is present with Python value `None`, the
inner `none`).  `cluster_threshold` is a Python float, modelled as a
rational. -/
structure ParamBag where
  orig_input_data_volume : Option String := none
  contrast : Option String := none
  group_label_dartel : Option String := none
  full_width_at_half_maximum : Option (Option Int) := none
  acq_label : Option EnumOrNone := none
  suvr_reference_region : Option EnumOrNone := none
  use_pvc_data : Option Bool := none
  measure_label : Option (Option String) := none
  custom_file : Option (Option String) := none
  cluster_threshold : Option Rat := none
deriving DecidableEq, Repr

/-- Message of the cluster-threshold `ClinicaException` (lines 52-55);
the `%s` rendering of the Python float is modelled by the decimal-exact
rational's `toString`. -/
def clusterMsg (q : Rat) : String :=
  "Cluster threshold should be between 0 and 1 (given value: "
    ++ toString q ++ ")."

/-- The `setdefault` calls of `_check_pipeline_parameters`
(lines 27-46), in their net effect on the bag; `a` and `r` are the
(already coerced) `acq_label` and `suvr_reference_region` values. -/
def resolveDefaults (p : ParamBag) (a r : EnumOrNone) : ParamBag :=
  { p with
    group_label_dartel := some (p.group_label_dartel.getD "*"),
    full_width_at_half_maximum :=
      some (p.full_width_at_half_maximum.getD (some 8)),
    acq_label := some a,
    suvr_reference_region := some r,
    use_pvc_data := some (p.use_pvc_data.getD false),
    measure_label := some (p.measure_label.getD none),
    custom_file := some (p.custom_file.getD none),
    cluster_threshold := some (p.cluster_threshold.getD (1 / 1000)) }

/-- `_check_pipeline_parameters` (lines 14-55): `KeyError` on a missing
mandatory key, then the truthiness-guarded `Tracer` and
`SUVRReferenceRegion` coercions (lines 31-38, which can raise the
enumeration `ValueError` before anything else), then the
cluster-threshold range check raising `ClinicaException` outside
`[0, 1]`.  The two membership predicates stand for the member sets of
the enumerations, which live outside src/. -/
def check_pipeline_parameters (validTracer validSuvr : String → Bool)
    (p : ParamBag) : Except PyErr ParamBag :=
  if p.orig_input_data_volume.isNone then
    Except.error (PyErr.keyError
      "Missing compulsory orig_input_data_volume key in pipeline parameter.")
  else if p.contrast.isNone then
    Except.error (PyErr.keyError
      "Missing compulsory contrast key in pipeline parameter.")
  else
    match coerceEnum validTracer "Tracer" (p.acq_label.getD EnumOrNone.null) with
    | Except.error e => Except.error e
    | Except.ok a =>
      match coerceEnum validSuvr "SUVRReferenceRegion"
          (p.suvr_reference_region.getD EnumOrNone.null) with
      | Except.error e => Except.error e
      | Except.ok r =>
        let ct := p.cluster_threshold.getD (1 / 1000)
        if ct < 0 ∨ ct > 1 then
          Except.error (PyErr.clinicaException (clusterMsg ct))
        else
          Except.ok (resolveDefaults p a r)

/-- The parameter state after `_check_pipeline_parameters`: every key
present (the source accesses them bare in `_build_input_node`). -/
structure ResolvedParams where
  orig_input_data_volume : String
  contrast : String
  group_label_dartel : String
  full_width_at_half_maximum : Option Int
  acq_label : EnumOrNone
  suvr_reference_region : EnumOrNone
  use_pvc_data : Bool
  measure_label : Option String
  custom_file : Option String
  cluster_threshold : Rat
deriving DecidableEq, Repr

/-- Modelled from the spec: the three file-matching descriptor shapes of
4.2 (`pet_volume_normalized_suvr_pet` and
`t1_volume_template_tpm_in_mni` live in clinica.utils.input_files, not
under src/); each constructor records the parameters the source passes
(lines 117-124, 127-132, 141-144). -/
inductive InformationDict
  | petVolume (acq_label : EnumOrNone) (group_label : String)
      (suvr_reference_region : EnumOrNone) (use_brainmasked_image : Bool)
      (use_pvc_data : Bool) (fwhm : Option Int)
  | t1Volume (group_label : String) (tissue_number : Nat)
      (modulation : Bool) (fwhm : Option Int)
  | custom (pattern : String) (description : String)
deriving DecidableEq, Repr

/-- Python `str` of a bool, as interpolated by the f-string. -/
def pyBoolStr : Bool → String
  | true => "True"
  | false => "False"

/-- `_build_input_node` (lines 90-148), input-selection part: dispatch
on `orig_input_data_volume`, validation, parameter updates and
descriptor construction.  In the pet-volume error branch the f-string
building the `ValueError` message evaluates
`self.parameters["acq_label"].value` and
`self.parameters["suvr_reference_region"].value` before the raise, so
attribute access happens first, exactly as in the source. -/
def build_input_node (p : ResolvedParams) :
    Except PyErr (ResolvedParams × InformationDict) :=
  if p.orig_input_data_volume = "pet-volume" then
    if truthyE p.acq_label && truthyE p.suvr_reference_region then
      match dotValue p.acq_label with
      | Except.error e => Except.error e
      | Except.ok a =>
        Except.ok ({ p with measure_label := some a },
          InformationDict.petVolume p.acq_label p.group_label_dartel
            p.suvr_reference_region true p.use_pvc_data
            p.full_width_at_half_maximum)
    else
      match dotValue p.acq_label with
      | Except.error e => Except.error e
      | Except.ok a =>
        match dotValue p.suvr_reference_region with
        | Except.error e => Except.error e
        | Except.ok r =>
          Except.error (PyErr.valueError
            ("Missing value(s) in parameters from pet-volume pipeline. Given values:\n- acq_label: "
              ++ a ++ "\n- suvr_reference_region: " ++ r
              ++ "\n- use_pvc_data: " ++ pyBoolStr p.use_pvc_data ++ "\n"))
  else if p.orig_input_data_volume = "t1-volume" then
    Except.ok ({ p with measure_label := some "graymatter" },
      InformationDict.t1Volume p.group_label_dartel 1 true
        p.full_width_at_half_maximum)
  else if p.orig_input_data_volume = "custom-pipeline" then
    match p.custom_file with
    | none =>
      Except.error (PyErr.clinicaException
        "Custom pipeline was selected but no 'custom_file' was specified.")
    | some cf =>
      if cf = "" then
        Except.error (PyErr.clinicaException
          "Custom pipeline was selected but no 'custom_file' was specified.")
      else
        Except.ok ({ p with full_width_at_half_maximum := none },
          InformationDict.custom cf "custom file provided by user")
  else
    Except.error (PyErr.valueError
      ("Input data " ++ p.orig_input_data_volume ++ " unknown."))

/-! ### Output fields, port connections and list indexing -/

/-- `get_output_fields` (lines 71-88). -/
def get_output_fields : List String :=
  ["spmT_0001", "spmT_0002", "spm_figures", "variance_of_error",
   "resels_per_voxels", "mask", "regression_coeff", "contrast"]

/-- Destination ports on the pipeline's output node in the connection
list of `_build_core_nodes` (lines 457-464), in source order. -/
def core_output_ports : List String :=
  ["spmT_0001", "spmT_0002", "spm_figures", "variance_of_error",
   "resels_per_voxels", "mask", "regression_coeff", "contrasts"]

/-- Source ports read from the output node in `_build_output_node`
(lines 241-264), in source order. -/
def sink_output_ports : List String :=
  ["spmT_0001", "spmT_0002", "spm_figures", "variance_of_error",
   "resels_per_voxels", "mask", "regression_coeff", "contrasts"]

/-- The splices of `_build_core_nodes` into the output node (lines
457-464): source field of `read_output_node`, positional index through
`_getter` when present, destination port. -/
def output_splices : List (String × Option Nat × String) :=
  [("spm_T_maps", some 0, "spmT_0001"),
   ("spm_T_maps", some 1, "spmT_0002"),
   ("spm_figures", none, "spm_figures"),
   ("other_spm_files", some 0, "variance_of_error"),
   ("other_spm_files", some 1, "resels_per_voxels"),
   ("other_spm_files", some 2, "mask"),
   ("regression_coeff", none, "regression_coeff"),
   ("contrasts", none, "contrasts")]

/-- `_getter` (lines 284-285): `files[idx]` with Python list-index
semantics for a non-negative index; out of range raises
`IndexError("list index out of range")`, never padding. -/
def getter (files : List String) (idx : Nat) : Except PyErr String :=
  match files[idx]? with
  | some f => Except.ok f
  | none => Except.error (PyErr.indexError "list index out of range")

/-- Sample base directory, group id and measure label for concrete
evaluations. -/
def sampleBase : List Char := "/b".toList

def sampleGid : List Char := "g".toList

def sampleMeasure : List Char := "m".toList

/-! ### Lemmas about the matching machinery -/

theorem countSlash_append (a b : List Char) :
    countSlash (a ++ b) = countSlash a + countSlash b := by
  induction a with
  | nil => simp [countSlash]
  | cons c cs ih =>
    rw [List.cons_append]
    simp only [countSlash]
    rw [ih]
    omega

theorem countSlash_take_le (n : Nat) (s : List Char) :
    countSlash (s.take n) ≤ countSlash s := by
  conv_rhs => rw [← List.take_append_drop n s]
  rw [countSlash_append]
  omega

theorem countSlash_drop_le (n : Nat) (s : List Char) :
    countSlash (s.drop n) ≤ countSlash s := by
  conv_rhs => rw [← List.take_append_drop n s]
  rw [countSlash_append]
  omega

theorem litSlash_regexToks (t : List Char) :
    litSlash (regexToks t) = countSlash t := by
  induction t with
  | nil => rfl
  | cons c cs ih =>
    simp only [regexToks, List.map_cons] at *
    simp only [litSlash, countSlash, ih]
    by_cases hc : c = '.'
    · subst hc
      simp [litSlash]
    · by_cases hs : c = '/'
      · subst hs
        simp
      · simp [hc, hs, Tok.lit.injEq]

theorem regexToks_append (a b : List Char) :
    regexToks (a ++ b) = regexToks a ++ regexToks b := by
  simp [regexToks]

theorem length_regexToks (t : List Char) :
    (regexToks t).length = t.length := by
  simp [regexToks]

/-- A pattern built from source text matches that text (followed by
anything). -/
theorem matchesFront_cancel (x : List Char) (ts : List Tok) (y : List Char) :
    matchesFront (regexToks x ++ ts) (x ++ y) = matchesFront ts y := by
  induction x with
  | nil => rfl
  | cons c cs ih =>
    simp only [regexToks, List.map_cons, List.cons_append, matchesFront]
    have hm : tokMatch (if c = '.' then Tok.any else Tok.lit c) c = true := by
      by_cases hc : c = '.' <;> simp [hc, tokMatch]
    rw [hm]
    simpa [regexToks] using ih

theorem matchesFront_self (x y : List Char) :
    matchesFront (regexToks x) (x ++ y) = true := by
  have := matchesFront_cancel x [] y
  simpa using this

/-- A match of the front of `cs` survives appending to `cs`. -/
theorem matchesFront_append_right (ts : List Tok) (cs f : List Char)
    (h : matchesFront ts cs = true) : matchesFront ts (cs ++ f) = true := by
  induction ts generalizing cs with
  | nil => rfl
  | cons t ts ih =>
    cases cs with
    | nil => simp [matchesFront] at h
    | cons c cs2 =>
      simp only [matchesFront, Bool.and_eq_true] at h
      simp only [List.cons_append, matchesFront, Bool.and_eq_true]
      exact ⟨h.1, ih cs2 h.2⟩

/-- If the truncation of a pattern to the concrete part of a string
fails to match, the whole pattern fails on any extension. -/
theorem matchesFront_take (ts : List Tok) (cs f : List Char)
    (h : matchesFront ts (cs ++ f) = true) :
    matchesFront (ts.take cs.length) cs = true := by
  induction ts generalizing cs with
  | nil => simp [matchesFront]
  | cons t ts ih =>
    cases cs with
    | nil => simp [matchesFront]
    | cons c cs2 =>
      simp only [List.cons_append, matchesFront, Bool.and_eq_true] at h
      simp only [List.length_cons, List.take_succ_cons, matchesFront,
        Bool.and_eq_true]
      exact ⟨h.1, ih cs2 h.2⟩

theorem matchesFront_false_of_take (ts : List Tok) (cs f : List Char)
    (h : matchesFront (ts.take cs.length) cs = false) :
    matchesFront ts (cs ++ f) = false := by
  by_contra hne
  have := matchesFront_take ts cs f (by
    cases hm : matchesFront ts (cs ++ f) with
    | true => rfl
    | false => exact absurd hm hne)
  rw [this] at h
  cases h

theorem countSlash_cons_le (c : Char) (s : List Char) :
    countSlash s ≤ countSlash (c :: s) := by
  simp only [countSlash]
  split <;> omega

/-- A match forces at least as many slashes in the string as literal
slashes in the pattern. -/
theorem litSlash_le_of_matchesFront (p : List Tok) (s : List Char)
    (h : matchesFront p s = true) : litSlash p ≤ countSlash s := by
  induction p generalizing s with
  | nil => simp [litSlash]
  | cons t ts ih =>
    cases s with
    | nil => simp [matchesFront] at h
    | cons c cs =>
      simp only [matchesFront, Bool.and_eq_true] at h
      have hrec := ih cs h.2
      simp only [litSlash, countSlash]
      by_cases ht : t = Tok.lit '/'
      · subst ht
        have hc : c = '/' := by
          have h1 := h.1
          simp only [tokMatch, decide_eq_true_eq] at h1
          exact h1.symm
        simp only [hc, if_pos rfl]
        omega
      · simp only [if_neg ht]
        split <;> omega

/-- A pattern with more literal slashes than the string has slashes can
match nowhere. -/
theorem matchesFront_false_of_count (p : List Tok) (s : List Char)
    (h : countSlash s < litSlash p) : matchesFront p s = false := by
  cases hm : matchesFront p s with
  | false => rfl
  | true =>
    have := litSlash_le_of_matchesFront p s hm
    omega

theorem findFrom_eq_none (p : List Tok) (s : List Char)
    (h : countSlash s < litSlash p) : findFrom p s = none := by
  induction s with
  | nil => simp [findFrom, matchesFront_false_of_count p [] h]
  | cons c cs ih =>
    have h2 : countSlash cs < litSlash p :=
      lt_of_le_of_lt (countSlash_cons_le c cs) h
    simp [findFrom, matchesFront_false_of_count p (c :: cs) h, ih h2]

theorem findFrom_eq_zero (p : List Tok) (s : List Char)
    (h : matchesFront p s = true) : findFrom p s = some 0 := by
  cases s with
  | nil => simp [findFrom, h]
  | cons c cs => simp [findFrom, h]

theorem findFrom_cons_none (p : List Tok) (c : Char) (cs : List Char)
    (h0 : matchesFront p (c :: cs) = false)
    (h : countSlash cs < litSlash p) : findFrom p (c :: cs) = none := by
  simp [findFrom, h0, findFrom_eq_none p cs h]

/-! ### Lemmas about the substitution functions -/

theorem substExactAux_skip (p : Tok) (ps : List Tok) (rep : List Char)
    (k : Nat) (s : List Char) :
    substExactAux p ps rep k s = substExactAux p ps rep 0 (s.drop k) := by
  induction s generalizing k with
  | nil => cases k <;> simp [substExactAux]
  | cons c cs ih =>
    cases k with
    | zero => simp
    | succ n => simpa [substExactAux] using ih n

theorem substExactAux_id (p : Tok) (ps : List Tok) (rep : List Char)
    (s : List Char) (h : countSlash s < litSlash (p :: ps)) :
    substExactAux p ps rep 0 s = s := by
  induction s with
  | nil => simp [substExactAux]
  | cons c cs ih =>
    have hm := matchesFront_false_of_count (p :: ps) (c :: cs) h
    have h2 : countSlash cs < litSlash (p :: ps) :=
      lt_of_le_of_lt (countSlash_cons_le c cs) h
    simp [substExactAux, hm, ih h2]

theorem substExactAux_cons_id (p : Tok) (ps : List Tok) (rep : List Char)
    (c : Char) (cs : List Char)
    (h0 : matchesFront (p :: ps) (c :: cs) = false)
    (h : countSlash cs < litSlash (p :: ps)) :
    substExactAux p ps rep 0 (c :: cs) = c :: cs := by
  simp [substExactAux, h0, substExactAux_id p ps rep cs h]

theorem substExactAux_fire (p : Tok) (ps : List Tok) (rep : List Char)
    (c : Char) (cs : List Char)
    (h : matchesFront (p :: ps) (c :: cs) = true) :
    substExactAux p ps rep 0 (c :: cs)
      = rep ++ substExactAux p ps rep 0 (cs.drop ps.length) := by
  simp [substExactAux, h, substExactAux_skip]

theorem substCapSufAux_skip (p : Tok) (ps suf : List Tok)
    (rpre rsuf : List Char) (k : Nat) (s : List Char) :
    substCapSufAux p ps suf rpre rsuf k s
      = substCapSufAux p ps suf rpre rsuf 0 (s.drop k) := by
  induction s generalizing k with
  | nil => cases k <;> simp [substCapSufAux]
  | cons c cs ih =>
    cases k with
    | zero => simp
    | succ n => simpa [substCapSufAux] using ih n

theorem substCapSufAux_id (p : Tok) (ps suf : List Tok)
    (rpre rsuf : List Char) (s : List Char)
    (h : countSlash s < litSlash (p :: ps)) :
    substCapSufAux p ps suf rpre rsuf 0 s = s := by
  induction s with
  | nil => simp [substCapSufAux]
  | cons c cs ih =>
    have hm := matchesFront_false_of_count (p :: ps) (c :: cs) h
    have h2 : countSlash cs < litSlash (p :: ps) :=
      lt_of_le_of_lt (countSlash_cons_le c cs) h
    simp [substCapSufAux, hm, ih h2]

theorem substCapSufAux_cons_id (p : Tok) (ps suf : List Tok)
    (rpre rsuf : List Char) (c : Char) (cs : List Char)
    (h0 : matchesFront (p :: ps) (c :: cs) = false)
    (h : countSlash cs < litSlash (p :: ps)) :
    substCapSufAux p ps suf rpre rsuf 0 (c :: cs) = c :: cs := by
  simp [substCapSufAux, h0, substCapSufAux_id p ps suf rpre rsuf cs h]

theorem substCapSufAux_fire (p : Tok) (ps suf : List Tok)
    (rpre rsuf : List Char) (c : Char) (cs : List Char) (k : Nat)
    (h : matchesFront (p :: ps) (c :: cs) = true)
    (hs : lastSuf suf (cs.drop ps.length) = some k) :
    substCapSufAux p ps suf rpre rsuf 0 (c :: cs)
      = rpre ++ (cs.drop ps.length).take k ++ rsuf
        ++ substCapSufAux p ps suf rpre rsuf 0
            (((cs.drop ps.length)).drop (k + suf.length)) := by
  have hd : ((cs.drop ps.length)).drop (k + suf.length)
      = cs.drop (ps.length + k + suf.length) := by
    rw [List.drop_drop]
    congr 1
    omega
  simp [substCapSufAux, h, hs, substCapSufAux_skip, hd]

theorem substCapSufAux_nosuf (p : Tok) (ps suf : List Tok)
    (rpre rsuf : List Char) (c : Char) (cs : List Char)
    (h : matchesFront (p :: ps) (c :: cs) = true)
    (hs : lastSuf suf (cs.drop ps.length) = none)
    (hc : countSlash cs < litSlash (p :: ps)) :
    substCapSufAux p ps suf rpre rsuf 0 (c :: cs) = c :: cs := by
  simp [substCapSufAux, h, hs, substCapSufAux_id p ps suf rpre rsuf cs hc]

/-! ### Lemmas about `substRule` and `applyRules` -/

/-- A rule whose pattern needs more literal slashes than the path has
leaves the path untouched. -/
theorem substRule_id_strict (r : RSub) (s : List Char)
    (h : countSlash s < litSlash (preOf r)) : substRule r s = s := by
  cases r with
  | strip pre rep => simp [substRule, findFrom_eq_none pre s h]
  | renameExact pat rep =>
    cases pat with
    | nil => simp [litSlash] at h
    | cons p ps =>
      simp only [substRule, substExact]
      exact substExactAux_id p ps rep s (by simpa [preOf] using h)
  | collapse pre rep => simp [substRule, findFrom_eq_none pre s h]
  | capSuf pre suf rpre rsuf =>
    cases pre with
    | nil => simp [litSlash] at h
    | cons p ps =>
      simp only [substRule]
      exact substCapSufAux_id p ps suf rpre rsuf s (by simpa [preOf] using h)

/-- A rule that fails to match at position zero of a path whose tail
carries strictly fewer slashes than the pattern's literal slashes leaves
the path untouched (there is no room for a match at a later position). -/
theorem substRule_id_tie (r : RSub) (c : Char) (cs : List Char)
    (h0 : matchesFront (preOf r) (c :: cs) = false)
    (h : countSlash cs < litSlash (preOf r)) :
    substRule r (c :: cs) = c :: cs := by
  cases r with
  | strip pre rep =>
    simp only [preOf] at h0 h
    simp [substRule, findFrom_cons_none pre c cs h0 h]
  | renameExact pat rep =>
    simp only [preOf] at h0 h
    cases pat with
    | nil => simp [matchesFront] at h0
    | cons p ps =>
      simp only [substRule, substExact]
      exact substExactAux_cons_id p ps rep c cs h0 h
  | collapse pre rep =>
    simp only [preOf] at h0 h
    simp [substRule, findFrom_cons_none pre c cs h0 h]
  | capSuf pre suf rpre rsuf =>
    simp only [preOf] at h0 h
    cases pre with
    | nil => simp [matchesFront] at h0
    | cons p ps =>
      simp only [substRule]
      exact substCapSufAux_cons_id p ps suf rpre rsuf c cs h0 h

theorem substRule_strip_fire (pre : List Tok) (rep s : List Char)
    (h : matchesFront pre s = true) :
    substRule (RSub.strip pre rep) s = rep ++ s.drop pre.length := by
  simp [substRule, findFrom_eq_zero pre s h]

theorem substRule_collapse_fire (pre : List Tok) (rep s : List Char)
    (h : matchesFront pre s = true) :
    substRule (RSub.collapse pre rep) s = rep := by
  simp [substRule, findFrom_eq_zero pre s h]

theorem applyRules_cons (r : RSub) (rs : List RSub) (s : List Char) :
    applyRules (r :: rs) s = applyRules rs (substRule r s) := rfl

theorem applyRules_nil (s : List Char) : applyRules [] s = s := rfl

theorem applyRules_id_strict (rs : List RSub) (s : List Char)
    (h : ∀ r ∈ rs, countSlash s < litSlash (preOf r)) :
    applyRules rs s = s := by
  induction rs with
  | nil => rfl
  | cons r rest ih =>
    rw [applyRules_cons, substRule_id_strict r s (h r (by simp))]
    exact ih fun q hq => h q (by simp [hq])

/-- Every pattern of the rule list carries exactly two more literal
slashes than the base directory has slashes. -/
theorem litSlash_rules (base gid measure : List Char) (fwhm : Option Int) :
    ∀ r ∈ rules_list base gid measure fwhm,
      litSlash (preOf r) = countSlash base + 2 := by
  intro r hr
  simp only [rules_list, List.mem_cons, List.not_mem_nil, or_false] at hr
  rcases hr with rfl | rfl | rfl | rfl | rfl | rfl | rfl | rfl <;>
    simp [preOf, litSlash_regexToks, countSlash_append] <;>
    decide

/-- A path with at most one more slash than the base directory is left
untouched by the whole rule list. -/
theorem applyRules_rules_id (base gid measure : List Char)
    (fwhm : Option Int) (s : List Char)
    (h : countSlash s < countSlash base + 2) :
    applyRules (rules_list base gid measure fwhm) s = s := by
  refine applyRules_id_strict _ s fun r hr => ?_
  rw [litSlash_rules base gid measure fwhm r hr]
  exact h

/-! ### Behaviour of single rules on datasink paths

A datasink path has the shape `base ++ cs ++ f` where
`base = '/' :: bs` is the absolute base directory, `cs` is the concrete
`/dir/` segment of the connected port, and `f` is the slash-free
remainder.  Each rule pattern has the shape `regexToks (base ++ t)`
with two slashes in `t`, so a match needs `countSlash base + 2` slashes;
since a datasink path has exactly that many, any match must start at
position zero, where it is decided by comparing `t` against `cs`. -/

theorem substRule_id_dir0 (r : RSub) (bs t cs f : List Char)
    (hr : preOf r = regexToks (('/' :: bs) ++ t))
    (h0 : matchesFront (regexToks t) (cs ++ f) = false)
    (ht : countSlash t = 2) (hcs : countSlash cs ≤ 2)
    (hf : countSlash f = 0) :
    substRule r (('/' :: bs) ++ (cs ++ f)) = ('/' :: bs) ++ (cs ++ f) := by
  have hshape : ('/' :: bs) ++ (cs ++ f) = '/' :: (bs ++ (cs ++ f)) := rfl
  rw [hshape]
  apply substRule_id_tie
  · rw [hr, ← hshape, regexToks_append, matchesFront_cancel]
    exact h0
  · rw [hr, litSlash_regexToks, countSlash_append, countSlash_append,
      countSlash_append, hf, ht]
    have h1 : countSlash ('/' :: bs) = countSlash bs + 1 := by
      simp [countSlash]
    omega

theorem substRule_id_dir (r : RSub) (bs t cs f : List Char)
    (hr : preOf r = regexToks (('/' :: bs) ++ t))
    (h0 : matchesFront ((regexToks t).take cs.length) cs = false)
    (ht : countSlash t = 2) (hcs : countSlash cs ≤ 2)
    (hf : countSlash f = 0) :
    substRule r (('/' :: bs) ++ (cs ++ f)) = ('/' :: bs) ++ (cs ++ f) :=
  substRule_id_dir0 r bs t cs f hr
    (matchesFront_false_of_take (regexToks t) cs f h0) ht hcs hf

theorem strip_fire_dir (bs t cs f rep : List Char)
    (hm : matchesFront (regexToks t) cs = true)
    (hlen : t.length = cs.length) :
    substRule (RSub.strip (regexToks (('/' :: bs) ++ t)) rep)
        (('/' :: bs) ++ (cs ++ f)) = rep ++ f := by
  have hassoc : ('/' :: bs) ++ (cs ++ f) = (('/' :: bs) ++ cs) ++ f := by
    rw [List.append_assoc]
  have h : matchesFront (regexToks (('/' :: bs) ++ t))
      (('/' :: bs) ++ (cs ++ f)) = true := by
    rw [regexToks_append, matchesFront_cancel]
    exact matchesFront_append_right (regexToks t) cs f hm
  rw [substRule_strip_fire _ _ _ h, hassoc]
  congr 1
  have hl : (regexToks (('/' :: bs) ++ t)).length
      = (('/' :: bs) ++ cs).length := by
    rw [length_regexToks, List.length_append, List.length_append, hlen]
  rw [hl, List.drop_left]

theorem collapse_fire_dir (bs t cs f rep : List Char)
    (hm : matchesFront (regexToks t) cs = true) :
    substRule (RSub.collapse (regexToks (('/' :: bs) ++ t)) rep)
        (('/' :: bs) ++ (cs ++ f)) = rep := by
  have h : matchesFront (regexToks (('/' :: bs) ++ t))
      (('/' :: bs) ++ (cs ++ f)) = true := by
    rw [regexToks_append, matchesFront_cancel]
    exact matchesFront_append_right (regexToks t) cs f hm
  exact substRule_collapse_fire _ _ _ h

theorem countSlash_base (bs : List Char) :
    countSlash ('/' :: bs) = countSlash bs + 1 := by
  simp [countSlash]

theorem substRule_renameExact_cons (p : Tok) (ps : List Tok)
    (rep s : List Char) :
    substRule (RSub.renameExact (p :: ps) rep) s
      = substExactAux p ps rep 0 s := rfl

theorem substRule_capSuf_cons (p : Tok) (ps suf : List Tok)
    (rpre rsuf s : List Char) :
    substRule (RSub.capSuf (p :: ps) suf rpre rsuf) s
      = substCapSufAux p ps suf rpre rsuf 0 s := rfl

theorem regexToks_cons_slash (x : List Char) :
    regexToks ('/' :: x) = Tok.lit '/' :: regexToks x := by
  simp [regexToks]

/-- The groupless RPV/mask pattern `base ++ t` with `t = cs ++ rest`
fires on the path `base ++ cs ++ f` as soon as `rest` matches the front
of `f`, replacing the matched region with `rep` and keeping the
unmatched tail of `f`. -/
theorem renameExact_fire_dir (bs t cs rest f rep : List Char)
    (hsplit : t = cs ++ rest)
    (hm : matchesFront (regexToks rest) f = true)
    (hf : countSlash f = 0) :
    substRule (RSub.renameExact (regexToks (('/' :: bs) ++ t)) rep)
        (('/' :: bs) ++ (cs ++ f)) = rep ++ f.drop rest.length := by
  have hpat : regexToks (('/' :: bs) ++ t)
      = Tok.lit '/' :: regexToks (bs ++ t) := regexToks_cons_slash (bs ++ t)
  have hpath : ('/' :: bs) ++ (cs ++ f) = '/' :: (bs ++ (cs ++ f)) := rfl
  have hfront : matchesFront (Tok.lit '/' :: regexToks (bs ++ t))
      ('/' :: (bs ++ (cs ++ f))) = true := by
    rw [← hpat, ← hpath, regexToks_append, matchesFront_cancel, hsplit,
      regexToks_append, matchesFront_cancel]
    exact hm
  rw [hpat, substRule_renameExact_cons, hpath,
    substExactAux_fire _ _ _ _ _ hfront]
  have hdrop : (bs ++ (cs ++ f)).drop (regexToks (bs ++ t)).length
      = f.drop rest.length := by
    rw [length_regexToks, hsplit, ← List.append_assoc, ← List.append_assoc,
      List.length_append, List.drop_append]
  rw [hdrop]
  congr 1
  apply substExactAux_id
  have hcount := countSlash_drop_le rest.length f
  rw [hf, Nat.le_zero] at hcount
  have hl : litSlash (Tok.lit '/' :: regexToks (bs ++ t))
      = litSlash (regexToks (bs ++ t)) + 1 := by
    simp [litSlash]
  rw [hcount, hl]
  omega

/-- The regression-coefficient pattern fires on
`base ++ "/regression_coeff/" ++ f` when its `.nii` suffix matches
somewhere in `f`, with the greedy group capturing `f.take k`. -/
theorem capSuf_fire_dir (bs t f : List Char) (suf : List Tok)
    (rpre rsuf : List Char) (k : Nat)
    (hs : lastSuf suf f = some k) (hf : countSlash f = 0) :
    substRule (RSub.capSuf (regexToks (('/' :: bs) ++ t)) suf rpre rsuf)
        (('/' :: bs) ++ (t ++ f))
      = rpre ++ f.take k ++ rsuf ++ f.drop (k + suf.length) := by
  have hpat : regexToks (('/' :: bs) ++ t)
      = Tok.lit '/' :: regexToks (bs ++ t) := regexToks_cons_slash (bs ++ t)
  have hpath : ('/' :: bs) ++ (t ++ f) = '/' :: (bs ++ (t ++ f)) := rfl
  have hfront : matchesFront (Tok.lit '/' :: regexToks (bs ++ t))
      ('/' :: (bs ++ (t ++ f))) = true := by
    rw [← hpat, ← hpath, regexToks_append, matchesFront_cancel]
    exact matchesFront_self t f
  have hdrop : (bs ++ (t ++ f)).drop (regexToks (bs ++ t)).length = f := by
    rw [length_regexToks, ← List.append_assoc, List.drop_left]
  rw [hpat, substRule_capSuf_cons, hpath]
  rw [substCapSufAux_fire _ _ _ _ _ _ _ k hfront (by rw [hdrop]; exact hs)]
  rw [hdrop]
  congr 1
  apply substCapSufAux_id
  have hcount := countSlash_drop_le (k + suf.length) f
  rw [hf, Nat.le_zero] at hcount
  have hl : litSlash (Tok.lit '/' :: regexToks (bs ++ t))
      = litSlash (regexToks (bs ++ t)) + 1 := by
    simp [litSlash]
  rw [hcount, hl]
  omega

/-- The regression-coefficient pattern finds its directory but no
`.nii` suffix: the whole rule is a no-op. -/
theorem capSuf_nosuf_dir (bs t f : List Char) (suf : List Tok)
    (rpre rsuf : List Char)
    (hs : lastSuf suf f = none) (hf : countSlash f = 0)
    (ht : countSlash t = 2) :
    substRule (RSub.capSuf (regexToks (('/' :: bs) ++ t)) suf rpre rsuf)
        (('/' :: bs) ++ (t ++ f))
      = ('/' :: bs) ++ (t ++ f) := by
  have hpat : regexToks (('/' :: bs) ++ t)
      = Tok.lit '/' :: regexToks (bs ++ t) := regexToks_cons_slash (bs ++ t)
  have hpath : ('/' :: bs) ++ (t ++ f) = '/' :: (bs ++ (t ++ f)) := rfl
  have hfront : matchesFront (Tok.lit '/' :: regexToks (bs ++ t))
      ('/' :: (bs ++ (t ++ f))) = true := by
    rw [← hpat, ← hpath, regexToks_append, matchesFront_cancel]
    exact matchesFront_self t f
  have hdrop : (bs ++ (t ++ f)).drop (regexToks (bs ++ t)).length = f := by
    rw [length_regexToks, ← List.append_assoc, List.drop_left]
  rw [hpat, substRule_capSuf_cons, hpath]
  rw [substCapSufAux_nosuf _ _ _ _ _ _ _ hfront (by rw [hdrop]; exact hs)]
  have hl : litSlash (Tok.lit '/' :: regexToks (bs ++ t))
      = countSlash (bs ++ t) + 1 := by
    simp [litSlash, litSlash_regexToks]
  rw [hl, countSlash_append, countSlash_append, countSlash_append, hf, ht]
  omega

/-- A rule of the list leaves any path of shape `base ++ x ++ f` with
`countSlash x ≤ 1` and slash-free `f` untouched: such a path has at
most `countSlash base + 1` slashes, one fewer than every pattern
requires. -/
theorem substRule_id_after (r : RSub) (bs t x f : List Char)
    (hr : preOf r = regexToks (('/' :: bs) ++ t))
    (ht : countSlash t = 2) (hx : countSlash x ≤ 1)
    (hf : countSlash f = 0) :
    substRule r ((('/' :: bs) ++ x) ++ f) = (('/' :: bs) ++ x) ++ f := by
  apply substRule_id_strict
  rw [hr, litSlash_regexToks, countSlash_append, countSlash_append,
    countSlash_append, ht, hf]
  omega

theorem strip_id_after (bs t x f rep : List Char)
    (ht : countSlash t = 2) (hx : countSlash x ≤ 1)
    (hf : countSlash f = 0) :
    substRule (RSub.strip (regexToks (('/' :: bs) ++ t)) rep)
        ((('/' :: bs) ++ x) ++ f) = (('/' :: bs) ++ x) ++ f :=
  substRule_id_after _ bs t x f rfl ht hx hf

theorem renameExact_id_after (bs t x f rep : List Char)
    (ht : countSlash t = 2) (hx : countSlash x ≤ 1)
    (hf : countSlash f = 0) :
    substRule (RSub.renameExact (regexToks (('/' :: bs) ++ t)) rep)
        ((('/' :: bs) ++ x) ++ f) = (('/' :: bs) ++ x) ++ f :=
  substRule_id_after _ bs t x f rfl ht hx hf

theorem collapse_id_after (bs t x f rep : List Char)
    (ht : countSlash t = 2) (hx : countSlash x ≤ 1)
    (hf : countSlash f = 0) :
    substRule (RSub.collapse (regexToks (('/' :: bs) ++ t)) rep)
        ((('/' :: bs) ++ x) ++ f) = (('/' :: bs) ++ x) ++ f :=
  substRule_id_after _ bs t x f rfl ht hx hf

theorem capSuf_id_after (bs t x f : List Char) (suf : List Tok)
    (rpre rsuf : List Char)
    (ht : countSlash t = 2) (hx : countSlash x ≤ 1)
    (hf : countSlash f = 0) :
    substRule (RSub.capSuf (regexToks (('/' :: bs) ++ t)) suf rpre rsuf)
        ((('/' :: bs) ++ x) ++ f) = (('/' :: bs) ++ x) ++ f :=
  substRule_id_after _ bs t x f rfl ht hx hf

theorem strip_id_dir (bs t cs f rep : List Char)
    (h0 : matchesFront ((regexToks t).take cs.length) cs = false)
    (ht : countSlash t = 2) (hcs : countSlash cs ≤ 2)
    (hf : countSlash f = 0) :
    substRule (RSub.strip (regexToks (('/' :: bs) ++ t)) rep)
        (('/' :: bs) ++ (cs ++ f)) = ('/' :: bs) ++ (cs ++ f) :=
  substRule_id_dir (RSub.strip (regexToks (('/' :: bs) ++ t)) rep)
    bs t cs f rfl h0 ht hcs hf

theorem renameExact_id_dir (bs t cs f rep : List Char)
    (h0 : matchesFront ((regexToks t).take cs.length) cs = false)
    (ht : countSlash t = 2) (hcs : countSlash cs ≤ 2)
    (hf : countSlash f = 0) :
    substRule (RSub.renameExact (regexToks (('/' :: bs) ++ t)) rep)
        (('/' :: bs) ++ (cs ++ f)) = ('/' :: bs) ++ (cs ++ f) :=
  substRule_id_dir (RSub.renameExact (regexToks (('/' :: bs) ++ t)) rep)
    bs t cs f rfl h0 ht hcs hf

theorem renameExact_id_dir0 (bs t cs f rep : List Char)
    (h0 : matchesFront (regexToks t) (cs ++ f) = false)
    (ht : countSlash t = 2) (hcs : countSlash cs ≤ 2)
    (hf : countSlash f = 0) :
    substRule (RSub.renameExact (regexToks (('/' :: bs) ++ t)) rep)
        (('/' :: bs) ++ (cs ++ f)) = ('/' :: bs) ++ (cs ++ f) :=
  substRule_id_dir0 (RSub.renameExact (regexToks (('/' :: bs) ++ t)) rep)
    bs t cs f rfl h0 ht hcs hf

theorem collapse_id_dir (bs t cs f rep : List Char)
    (h0 : matchesFront ((regexToks t).take cs.length) cs = false)
    (ht : countSlash t = 2) (hcs : countSlash cs ≤ 2)
    (hf : countSlash f = 0) :
    substRule (RSub.collapse (regexToks (('/' :: bs) ++ t)) rep)
        (('/' :: bs) ++ (cs ++ f)) = ('/' :: bs) ++ (cs ++ f) :=
  substRule_id_dir (RSub.collapse (regexToks (('/' :: bs) ++ t)) rep)
    bs t cs f rfl h0 ht hcs hf

theorem capSuf_id_dir (bs t cs f : List Char) (suf : List Tok)
    (rpre rsuf : List Char)
    (h0 : matchesFront ((regexToks t).take cs.length) cs = false)
    (ht : countSlash t = 2) (hcs : countSlash cs ≤ 2)
    (hf : countSlash f = 0) :
    substRule (RSub.capSuf (regexToks (('/' :: bs) ++ t)) suf rpre rsuf)
        (('/' :: bs) ++ (cs ++ f)) = ('/' :: bs) ++ (cs ++ f) :=
  substRule_id_dir (RSub.capSuf (regexToks (('/' :: bs) ++ t)) suf rpre rsuf)
    bs t cs f rfl h0 ht hcs hf

/-- First pass over a path from the `contrasts` port: only the
contrasts rule fires, flattening the path into the base directory. -/
theorem pass_contrasts (bs gid measure f : List Char) (fwhm : Option Int)
    (hf : countSlash f = 0) :
    applyRules (rules_list ('/' :: bs) gid measure fwhm)
        (('/' :: bs) ++ ("/contrasts/".toList ++ f))
      = (('/' :: bs) ++ "/".toList) ++ f := by
  simp only [rules_list]
  rw [applyRules_cons,
    strip_id_dir bs "/spm_results_analysis_./".toList
      "/contrasts/".toList f _ (by decide) (by decide) (by decide) hf]
  rw [applyRules_cons,
    strip_fire_dir bs "/contrasts/".toList "/contrasts/".toList f
      (('/' :: bs) ++ "/".toList) (by decide) (by decide)]
  rw [applyRules_cons,
    renameExact_id_after bs "/resels_per_voxels/resels_per_voxel.nii".toList
      "/".toList f _ (by decide) (by decide) hf]
  rw [applyRules_cons,
    renameExact_id_after bs "/mask /included_voxel_mask.nii".toList
      "/".toList f _ (by decide) (by decide) hf]
  rw [applyRules_cons,
    strip_id_after bs "/variance_of_error/".toList "/".toList f _
      (by decide) (by decide) hf]
  rw [applyRules_cons,
    collapse_id_after bs "/tsv_file/".toList "/".toList f _
      (by decide) (by decide) hf]
  rw [applyRules_cons,
    strip_id_after bs "/figures/".toList "/".toList f _
      (by decide) (by decide) hf]
  rw [applyRules_cons,
    capSuf_id_after bs "/regression_coeff/".toList "/".toList f _ _ _
      (by decide) (by decide) hf]
  rfl

/-- First pass over a path from the first t-map port: the t-stat rule
(whose `.` wildcard matches the trailing `1`) fires. -/
theorem pass_spm1 (bs gid measure f : List Char) (fwhm : Option Int)
    (hf : countSlash f = 0) :
    applyRules (rules_list ('/' :: bs) gid measure fwhm)
        (('/' :: bs) ++ ("/spm_results_analysis_1/".toList ++ f))
      = (('/' :: bs) ++ "/".toList) ++ f := by
  simp only [rules_list]
  rw [applyRules_cons,
    strip_fire_dir bs "/spm_results_analysis_./".toList
      "/spm_results_analysis_1/".toList f
      (('/' :: bs) ++ "/".toList) (by decide) (by decide)]
  rw [applyRules_cons,
    strip_id_after bs "/contrasts/".toList "/".toList f _
      (by decide) (by decide) hf]
  rw [applyRules_cons,
    renameExact_id_after bs "/resels_per_voxels/resels_per_voxel.nii".toList
      "/".toList f _ (by decide) (by decide) hf]
  rw [applyRules_cons,
    renameExact_id_after bs "/mask /included_voxel_mask.nii".toList
      "/".toList f _ (by decide) (by decide) hf]
  rw [applyRules_cons,
    strip_id_after bs "/variance_of_error/".toList "/".toList f _
      (by decide) (by decide) hf]
  rw [applyRules_cons,
    collapse_id_after bs "/tsv_file/".toList "/".toList f _
      (by decide) (by decide) hf]
  rw [applyRules_cons,
    strip_id_after bs "/figures/".toList "/".toList f _
      (by decide) (by decide) hf]
  rw [applyRules_cons,
    capSuf_id_after bs "/regression_coeff/".toList "/".toList f _ _ _
      (by decide) (by decide) hf]
  rfl

/-- First pass over a path from the second t-map port. -/
theorem pass_spm2 (bs gid measure f : List Char) (fwhm : Option Int)
    (hf : countSlash f = 0) :
    applyRules (rules_list ('/' :: bs) gid measure fwhm)
        (('/' :: bs) ++ ("/spm_results_analysis_2/".toList ++ f))
      = (('/' :: bs) ++ "/".toList) ++ f := by
  simp only [rules_list]
  rw [applyRules_cons,
    strip_fire_dir bs "/spm_results_analysis_./".toList
      "/spm_results_analysis_2/".toList f
      (('/' :: bs) ++ "/".toList) (by decide) (by decide)]
  rw [applyRules_cons,
    strip_id_after bs "/contrasts/".toList "/".toList f _
      (by decide) (by decide) hf]
  rw [applyRules_cons,
    renameExact_id_after bs "/resels_per_voxels/resels_per_voxel.nii".toList
      "/".toList f _ (by decide) (by decide) hf]
  rw [applyRules_cons,
    renameExact_id_after bs "/mask /included_voxel_mask.nii".toList
      "/".toList f _ (by decide) (by decide) hf]
  rw [applyRules_cons,
    strip_id_after bs "/variance_of_error/".toList "/".toList f _
      (by decide) (by decide) hf]
  rw [applyRules_cons,
    collapse_id_after bs "/tsv_file/".toList "/".toList f _
      (by decide) (by decide) hf]
  rw [applyRules_cons,
    strip_id_after bs "/figures/".toList "/".toList f _
      (by decide) (by decide) hf]
  rw [applyRules_cons,
    capSuf_id_after bs "/regression_coeff/".toList "/".toList f _ _ _
      (by decide) (by decide) hf]
  rfl

/-- First pass over a path from the `variance_of_error` port. -/
theorem pass_variance (bs gid measure f : List Char) (fwhm : Option Int)
    (hf : countSlash f = 0) :
    applyRules (rules_list ('/' :: bs) gid measure fwhm)
        (('/' :: bs) ++ ("/variance_of_error/".toList ++ f))
      = (('/' :: bs) ++ "/".toList) ++ f := by
  simp only [rules_list]
  rw [applyRules_cons,
    strip_id_dir bs "/spm_results_analysis_./".toList
      "/variance_of_error/".toList f _ (by decide) (by decide) (by decide) hf]
  rw [applyRules_cons,
    strip_id_dir bs "/contrasts/".toList
      "/variance_of_error/".toList f _ (by decide) (by decide) (by decide) hf]
  rw [applyRules_cons,
    renameExact_id_dir bs "/resels_per_voxels/resels_per_voxel.nii".toList
      "/variance_of_error/".toList f _ (by decide) (by decide) (by decide) hf]
  rw [applyRules_cons,
    renameExact_id_dir bs "/mask /included_voxel_mask.nii".toList
      "/variance_of_error/".toList f _ (by decide) (by decide) (by decide) hf]
  rw [applyRules_cons,
    strip_fire_dir bs "/variance_of_error/".toList "/variance_of_error/".toList
      f (('/' :: bs) ++ "/".toList) (by decide) (by decide)]
  rw [applyRules_cons,
    collapse_id_after bs "/tsv_file/".toList "/".toList f _
      (by decide) (by decide) hf]
  rw [applyRules_cons,
    strip_id_after bs "/figures/".toList "/".toList f _
      (by decide) (by decide) hf]
  rw [applyRules_cons,
    capSuf_id_after bs "/regression_coeff/".toList "/".toList f _ _ _
      (by decide) (by decide) hf]
  rfl

/-- First pass over a path from the `figures` port. -/
theorem pass_figures (bs gid measure f : List Char) (fwhm : Option Int)
    (hf : countSlash f = 0) :
    applyRules (rules_list ('/' :: bs) gid measure fwhm)
        (('/' :: bs) ++ ("/figures/".toList ++ f))
      = (('/' :: bs) ++ "/".toList) ++ f := by
  simp only [rules_list]
  rw [applyRules_cons,
    strip_id_dir bs "/spm_results_analysis_./".toList
      "/figures/".toList f _ (by decide) (by decide) (by decide) hf]
  rw [applyRules_cons,
    strip_id_dir bs "/contrasts/".toList
      "/figures/".toList f _ (by decide) (by decide) (by decide) hf]
  rw [applyRules_cons,
    renameExact_id_dir bs "/resels_per_voxels/resels_per_voxel.nii".toList
      "/figures/".toList f _ (by decide) (by decide) (by decide) hf]
  rw [applyRules_cons,
    renameExact_id_dir bs "/mask /included_voxel_mask.nii".toList
      "/figures/".toList f _ (by decide) (by decide) (by decide) hf]
  rw [applyRules_cons,
    strip_id_dir bs "/variance_of_error/".toList
      "/figures/".toList f _ (by decide) (by decide) (by decide) hf]
  rw [applyRules_cons,
    collapse_id_dir bs "/tsv_file/".toList
      "/figures/".toList f _ (by decide) (by decide) (by decide) hf]
  rw [applyRules_cons,
    strip_fire_dir bs "/figures/".toList "/figures/".toList f
      (('/' :: bs) ++ "/".toList) (by decide) (by decide)]
  rw [applyRules_cons,
    capSuf_id_after bs "/regression_coeff/".toList "/".toList f _ _ _
      (by decide) (by decide) hf]
  rfl

/-- First pass over a path from the `mask` port: because the mask rule
pattern contains `"mask "` with a trailing space, no rule fires at all
and the path is left untouched. -/
theorem pass_mask (bs gid measure f : List Char) (fwhm : Option Int)
    (hf : countSlash f = 0) :
    applyRules (rules_list ('/' :: bs) gid measure fwhm)
        (('/' :: bs) ++ ("/mask/".toList ++ f))
      = ('/' :: bs) ++ ("/mask/".toList ++ f) := by
  simp only [rules_list]
  rw [applyRules_cons,
    strip_id_dir bs "/spm_results_analysis_./".toList
      "/mask/".toList f _ (by decide) (by decide) (by decide) hf]
  rw [applyRules_cons,
    strip_id_dir bs "/contrasts/".toList
      "/mask/".toList f _ (by decide) (by decide) (by decide) hf]
  rw [applyRules_cons,
    renameExact_id_dir bs "/resels_per_voxels/resels_per_voxel.nii".toList
      "/mask/".toList f _ (by decide) (by decide) (by decide) hf]
  rw [applyRules_cons,
    renameExact_id_dir bs "/mask /included_voxel_mask.nii".toList
      "/mask/".toList f _ (by decide) (by decide) (by decide) hf]
  rw [applyRules_cons,
    strip_id_dir bs "/variance_of_error/".toList
      "/mask/".toList f _ (by decide) (by decide) (by decide) hf]
  rw [applyRules_cons,
    collapse_id_dir bs "/tsv_file/".toList
      "/mask/".toList f _ (by decide) (by decide) (by decide) hf]
  rw [applyRules_cons,
    strip_id_dir bs "/figures/".toList
      "/mask/".toList f _ (by decide) (by decide) (by decide) hf]
  rw [applyRules_cons,
    capSuf_id_dir bs "/regression_coeff/".toList
      "/mask/".toList f _ _ _ (by decide) (by decide) (by decide) hf]
  rfl

/-- First pass over a path from the `tsv_file` port: the tsv rule fires
and relocates the file to the parent directory under the canonical
participants name. -/
theorem pass_tsv (bs gid measure f : List Char) (fwhm : Option Int)
    (hg : countSlash gid = 0) (hf : countSlash f = 0) :
    applyRules (rules_list ('/' :: bs) gid measure fwhm)
        (('/' :: bs) ++ ("/tsv_file/".toList ++ f))
      = ('/' :: bs) ++ ("/../".toList ++ (gid ++ "_participants.tsv".toList)) := by
  have hg2 : countSlash (gid ++ "_participants.tsv".toList) = 0 := by
    rw [countSlash_append, hg]
    decide
  simp only [rules_list]
  rw [applyRules_cons,
    strip_id_dir bs "/spm_results_analysis_./".toList
      "/tsv_file/".toList f _ (by decide) (by decide) (by decide) hf]
  rw [applyRules_cons,
    strip_id_dir bs "/contrasts/".toList
      "/tsv_file/".toList f _ (by decide) (by decide) (by decide) hf]
  rw [applyRules_cons,
    renameExact_id_dir bs "/resels_per_voxels/resels_per_voxel.nii".toList
      "/tsv_file/".toList f _ (by decide) (by decide) (by decide) hf]
  rw [applyRules_cons,
    renameExact_id_dir bs "/mask /included_voxel_mask.nii".toList
      "/tsv_file/".toList f _ (by decide) (by decide) (by decide) hf]
  rw [applyRules_cons,
    strip_id_dir bs "/variance_of_error/".toList
      "/tsv_file/".toList f _ (by decide) (by decide) (by decide) hf]
  rw [applyRules_cons,
    collapse_fire_dir bs "/tsv_file/".toList "/tsv_file/".toList f _
      (by decide)]
  rw [List.append_assoc (('/' :: bs) ++ "/../".toList) gid
      "_participants.tsv".toList,
    List.append_assoc ('/' :: bs) "/../".toList
      (gid ++ "_participants.tsv".toList)]
  rw [applyRules_cons,
    strip_id_dir bs "/figures/".toList "/../".toList
      (gid ++ "_participants.tsv".toList) _
      (by decide) (by decide) (by decide) hg2]
  rw [applyRules_cons,
    capSuf_id_dir bs "/regression_coeff/".toList "/../".toList
      (gid ++ "_participants.tsv".toList) _ _ _
      (by decide) (by decide) (by decide) hg2]
  rfl

/-- Any pass over the relocated participants path is a no-op: every
pattern's text after the base directory starts with a letter, while the
path continues with `/../`. -/
theorem tsv_second (bs gid measure : List Char) (fwhm : Option Int)
    (hg : countSlash gid = 0) :
    applyRules (rules_list ('/' :: bs) gid measure fwhm)
        (('/' :: bs) ++ ("/../".toList ++ (gid ++ "_participants.tsv".toList)))
      = ('/' :: bs) ++ ("/../".toList ++ (gid ++ "_participants.tsv".toList)) := by
  have hg2 : countSlash (gid ++ "_participants.tsv".toList) = 0 := by
    rw [countSlash_append, hg]
    decide
  simp only [rules_list]
  rw [applyRules_cons,
    strip_id_dir bs "/spm_results_analysis_./".toList "/../".toList
      (gid ++ "_participants.tsv".toList) _
      (by decide) (by decide) (by decide) hg2]
  rw [applyRules_cons,
    strip_id_dir bs "/contrasts/".toList "/../".toList
      (gid ++ "_participants.tsv".toList) _
      (by decide) (by decide) (by decide) hg2]
  rw [applyRules_cons,
    renameExact_id_dir bs "/resels_per_voxels/resels_per_voxel.nii".toList
      "/../".toList (gid ++ "_participants.tsv".toList) _
      (by decide) (by decide) (by decide) hg2]
  rw [applyRules_cons,
    renameExact_id_dir bs "/mask /included_voxel_mask.nii".toList
      "/../".toList (gid ++ "_participants.tsv".toList) _
      (by decide) (by decide) (by decide) hg2]
  rw [applyRules_cons,
    strip_id_dir bs "/variance_of_error/".toList "/../".toList
      (gid ++ "_participants.tsv".toList) _
      (by decide) (by decide) (by decide) hg2]
  rw [applyRules_cons,
    collapse_id_dir bs "/tsv_file/".toList "/../".toList
      (gid ++ "_participants.tsv".toList) _
      (by decide) (by decide) (by decide) hg2]
  rw [applyRules_cons,
    strip_id_dir bs "/figures/".toList "/../".toList
      (gid ++ "_participants.tsv".toList) _
      (by decide) (by decide) (by decide) hg2]
  rw [applyRules_cons,
    capSuf_id_dir bs "/regression_coeff/".toList "/../".toList
      (gid ++ "_participants.tsv".toList) _ _ _
      (by decide) (by decide) (by decide) hg2]
  rfl

/-- First pass over a path from the `resels_per_voxels` port whose
file name actually matches `resels_per_voxel.nii`: the RPV rule
fires. -/
theorem pass_resels_hit (bs gid measure f : List Char) (fwhm : Option Int)
    (hA : matchesFront (regexToks "resels_per_voxel.nii".toList) f = true)
    (hg : countSlash gid = 0) (hf : countSlash f = 0) :
    applyRules (rules_list ('/' :: bs) gid measure fwhm)
        (('/' :: bs) ++ ("/resels_per_voxels/".toList ++ f))
      = (('/' :: bs) ++ ("/".toList ++ (gid ++ "_RPV.nii".toList)))
          ++ f.drop "resels_per_voxel.nii".toList.length := by
  have hx : countSlash ("/".toList ++ (gid ++ "_RPV.nii".toList)) ≤ 1 := by
    rw [countSlash_append, countSlash_append, hg]
    decide
  have hf2 : countSlash (f.drop "resels_per_voxel.nii".toList.length) = 0 := by
    have := countSlash_drop_le "resels_per_voxel.nii".toList.length f
    omega
  simp only [rules_list]
  rw [applyRules_cons,
    strip_id_dir bs "/spm_results_analysis_./".toList
      "/resels_per_voxels/".toList f _ (by decide) (by decide) (by decide) hf]
  rw [applyRules_cons,
    strip_id_dir bs "/contrasts/".toList
      "/resels_per_voxels/".toList f _ (by decide) (by decide) (by decide) hf]
  rw [applyRules_cons,
    renameExact_fire_dir bs "/resels_per_voxels/resels_per_voxel.nii".toList
      "/resels_per_voxels/".toList "resels_per_voxel.nii".toList f _
      (by decide) hA hf]
  rw [List.append_assoc (('/' :: bs) ++ "/".toList) gid "_RPV.nii".toList,
    List.append_assoc ('/' :: bs) "/".toList (gid ++ "_RPV.nii".toList)]
  rw [applyRules_cons,
    renameExact_id_after bs "/mask /included_voxel_mask.nii".toList
      ("/".toList ++ (gid ++ "_RPV.nii".toList))
      (f.drop "resels_per_voxel.nii".toList.length) _
      (by decide) hx hf2]
  rw [applyRules_cons,
    strip_id_after bs "/variance_of_error/".toList
      ("/".toList ++ (gid ++ "_RPV.nii".toList))
      (f.drop "resels_per_voxel.nii".toList.length) _
      (by decide) hx hf2]
  rw [applyRules_cons,
    collapse_id_after bs "/tsv_file/".toList
      ("/".toList ++ (gid ++ "_RPV.nii".toList))
      (f.drop "resels_per_voxel.nii".toList.length) _
      (by decide) hx hf2]
  rw [applyRules_cons,
    strip_id_after bs "/figures/".toList
      ("/".toList ++ (gid ++ "_RPV.nii".toList))
      (f.drop "resels_per_voxel.nii".toList.length) _
      (by decide) hx hf2]
  rw [applyRules_cons,
    capSuf_id_after bs "/regression_coeff/".toList
      ("/".toList ++ (gid ++ "_RPV.nii".toList))
      (f.drop "resels_per_voxel.nii".toList.length) _ _ _
      (by decide) hx hf2]
  rfl

/-- First pass over a path from the `resels_per_voxels` port whose file
name does not match: nothing fires. -/
theorem pass_resels_miss (bs gid measure f : List Char) (fwhm : Option Int)
    (hA : matchesFront (regexToks "resels_per_voxel.nii".toList) f = false)
    (hf : countSlash f = 0) :
    applyRules (rules_list ('/' :: bs) gid measure fwhm)
        (('/' :: bs) ++ ("/resels_per_voxels/".toList ++ f))
      = ('/' :: bs) ++ ("/resels_per_voxels/".toList ++ f) := by
  have h3 : matchesFront
      (regexToks "/resels_per_voxels/resels_per_voxel.nii".toList)
      ("/resels_per_voxels/".toList ++ f) = false := by
    rw [show ("/resels_per_voxels/resels_per_voxel.nii".toList : List Char)
        = "/resels_per_voxels/".toList ++ "resels_per_voxel.nii".toList
        from rfl, regexToks_append, matchesFront_cancel]
    exact hA
  simp only [rules_list]
  rw [applyRules_cons,
    strip_id_dir bs "/spm_results_analysis_./".toList
      "/resels_per_voxels/".toList f _ (by decide) (by decide) (by decide) hf]
  rw [applyRules_cons,
    strip_id_dir bs "/contrasts/".toList
      "/resels_per_voxels/".toList f _ (by decide) (by decide) (by decide) hf]
  rw [applyRules_cons,
    renameExact_id_dir0 bs "/resels_per_voxels/resels_per_voxel.nii".toList
      "/resels_per_voxels/".toList f _ h3 (by decide) (by decide) hf]
  rw [applyRules_cons,
    renameExact_id_dir bs "/mask /included_voxel_mask.nii".toList
      "/resels_per_voxels/".toList f _ (by decide) (by decide) (by decide) hf]
  rw [applyRules_cons,
    strip_id_dir bs "/variance_of_error/".toList
      "/resels_per_voxels/".toList f _ (by decide) (by decide) (by decide) hf]
  rw [applyRules_cons,
    collapse_id_dir bs "/tsv_file/".toList
      "/resels_per_voxels/".toList f _ (by decide) (by decide) (by decide) hf]
  rw [applyRules_cons,
    strip_id_dir bs "/figures/".toList
      "/resels_per_voxels/".toList f _ (by decide) (by decide) (by decide) hf]
  rw [applyRules_cons,
    capSuf_id_dir bs "/regression_coeff/".toList
      "/resels_per_voxels/".toList f _ _ _
      (by decide) (by decide) (by decide) hf]
  rfl

/-- First pass over a path from the `regression_coeff` port whose file
name contains a `.nii` occurrence: the regression rule fires, the
greedy group capturing the covariate name. -/
theorem pass_regression_hit (bs gid measure f : List Char)
    (fwhm : Option Int) (k : Nat)
    (hs : lastSuf (regexToks ".nii".toList) f = some k)
    (hf : countSlash f = 0) :
    applyRules (rules_list ('/' :: bs) gid measure fwhm)
        (('/' :: bs) ++ ("/regression_coeff/".toList ++ f))
      = ('/' :: bs) ++ "/".toList ++ gid ++ "_covariate-".toList
          ++ f.take k
          ++ ("_measure-".toList ++ measure ++ "_fwhm-".toList
              ++ fwhmStr fwhm ++ "_regressionCoefficient.nii".toList)
          ++ f.drop (k + (regexToks ".nii".toList).length) := by
  simp only [rules_list]
  rw [applyRules_cons,
    strip_id_dir bs "/spm_results_analysis_./".toList
      "/regression_coeff/".toList f _ (by decide) (by decide) (by decide) hf]
  rw [applyRules_cons,
    strip_id_dir bs "/contrasts/".toList
      "/regression_coeff/".toList f _ (by decide) (by decide) (by decide) hf]
  rw [applyRules_cons,
    renameExact_id_dir bs "/resels_per_voxels/resels_per_voxel.nii".toList
      "/regression_coeff/".toList f _ (by decide) (by decide) (by decide) hf]
  rw [applyRules_cons,
    renameExact_id_dir bs "/mask /included_voxel_mask.nii".toList
      "/regression_coeff/".toList f _ (by decide) (by decide) (by decide) hf]
  rw [applyRules_cons,
    strip_id_dir bs "/variance_of_error/".toList
      "/regression_coeff/".toList f _ (by decide) (by decide) (by decide) hf]
  rw [applyRules_cons,
    collapse_id_dir bs "/tsv_file/".toList
      "/regression_coeff/".toList f _ (by decide) (by decide) (by decide) hf]
  rw [applyRules_cons,
    strip_id_dir bs "/figures/".toList
      "/regression_coeff/".toList f _ (by decide) (by decide) (by decide) hf]
  rw [applyRules_cons,
    capSuf_fire_dir bs "/regression_coeff/".toList f
      (regexToks ".nii".toList) _ _ k hs hf]
  rfl

/-- First pass over a path from the `regression_coeff` port with no
`.nii` occurrence in the file name: nothing fires. -/
theorem pass_regression_miss (bs gid measure f : List Char)
    (fwhm : Option Int)
    (hs : lastSuf (regexToks ".nii".toList) f = none)
    (hf : countSlash f = 0) :
    applyRules (rules_list ('/' :: bs) gid measure fwhm)
        (('/' :: bs) ++ ("/regression_coeff/".toList ++ f))
      = ('/' :: bs) ++ ("/regression_coeff/".toList ++ f) := by
  simp only [rules_list]
  rw [applyRules_cons,
    strip_id_dir bs "/spm_results_analysis_./".toList
      "/regression_coeff/".toList f _ (by decide) (by decide) (by decide) hf]
  rw [applyRules_cons,
    strip_id_dir bs "/contrasts/".toList
      "/regression_coeff/".toList f _ (by decide) (by decide) (by decide) hf]
  rw [applyRules_cons,
    renameExact_id_dir bs "/resels_per_voxels/resels_per_voxel.nii".toList
      "/regression_coeff/".toList f _ (by decide) (by decide) (by decide) hf]
  rw [applyRules_cons,
    renameExact_id_dir bs "/mask /included_voxel_mask.nii".toList
      "/regression_coeff/".toList f _ (by decide) (by decide) (by decide) hf]
  rw [applyRules_cons,
    strip_id_dir bs "/variance_of_error/".toList
      "/regression_coeff/".toList f _ (by decide) (by decide) (by decide) hf]
  rw [applyRules_cons,
    collapse_id_dir bs "/tsv_file/".toList
      "/regression_coeff/".toList f _ (by decide) (by decide) (by decide) hf]
  rw [applyRules_cons,
    strip_id_dir bs "/figures/".toList
      "/regression_coeff/".toList f _ (by decide) (by decide) (by decide) hf]
  rw [applyRules_cons,
    capSuf_nosuf_dir bs "/regression_coeff/".toList f
      (regexToks ".nii".toList) _ _ hs hf (by decide)]
  rfl

/-- Any already-flattened path `base ++ x ++ f` with at most one slash
in `x` and none in `f` is untouched by a whole pass. -/
theorem second_pass_flat (bs gid measure x f : List Char) (fwhm : Option Int)
    (hx : countSlash x ≤ 1) (hf : countSlash f = 0) :
    applyRules (rules_list ('/' :: bs) gid measure fwhm)
        ((('/' :: bs) ++ x) ++ f) = (('/' :: bs) ++ x) ++ f := by
  apply applyRules_rules_id
  rw [countSlash_append, countSlash_append]
  omega

theorem idem_spm1 (bs gid measure f : List Char) (fwhm : Option Int)
    (hf : countSlash f = 0) :
    applyRules (rules_list ('/' :: bs) gid measure fwhm)
        (applyRules (rules_list ('/' :: bs) gid measure fwhm)
          (('/' :: bs) ++ ("/spm_results_analysis_1/".toList ++ f)))
      = applyRules (rules_list ('/' :: bs) gid measure fwhm)
          (('/' :: bs) ++ ("/spm_results_analysis_1/".toList ++ f)) := by
  rw [pass_spm1 bs gid measure f fwhm hf]
  exact second_pass_flat bs gid measure "/".toList f fwhm (by decide) hf

theorem idem_spm2 (bs gid measure f : List Char) (fwhm : Option Int)
    (hf : countSlash f = 0) :
    applyRules (rules_list ('/' :: bs) gid measure fwhm)
        (applyRules (rules_list ('/' :: bs) gid measure fwhm)
          (('/' :: bs) ++ ("/spm_results_analysis_2/".toList ++ f)))
      = applyRules (rules_list ('/' :: bs) gid measure fwhm)
          (('/' :: bs) ++ ("/spm_results_analysis_2/".toList ++ f)) := by
  rw [pass_spm2 bs gid measure f fwhm hf]
  exact second_pass_flat bs gid measure "/".toList f fwhm (by decide) hf

theorem idem_contrasts (bs gid measure f : List Char) (fwhm : Option Int)
    (hf : countSlash f = 0) :
    applyRules (rules_list ('/' :: bs) gid measure fwhm)
        (applyRules (rules_list ('/' :: bs) gid measure fwhm)
          (('/' :: bs) ++ ("/contrasts/".toList ++ f)))
      = applyRules (rules_list ('/' :: bs) gid measure fwhm)
          (('/' :: bs) ++ ("/contrasts/".toList ++ f)) := by
  rw [pass_contrasts bs gid measure f fwhm hf]
  exact second_pass_flat bs gid measure "/".toList f fwhm (by decide) hf

theorem idem_variance (bs gid measure f : List Char) (fwhm : Option Int)
    (hf : countSlash f = 0) :
    applyRules (rules_list ('/' :: bs) gid measure fwhm)
        (applyRules (rules_list ('/' :: bs) gid measure fwhm)
          (('/' :: bs) ++ ("/variance_of_error/".toList ++ f)))
      = applyRules (rules_list ('/' :: bs) gid measure fwhm)
          (('/' :: bs) ++ ("/variance_of_error/".toList ++ f)) := by
  rw [pass_variance bs gid measure f fwhm hf]
  exact second_pass_flat bs gid measure "/".toList f fwhm (by decide) hf

theorem idem_figures (bs gid measure f : List Char) (fwhm : Option Int)
    (hf : countSlash f = 0) :
    applyRules (rules_list ('/' :: bs) gid measure fwhm)
        (applyRules (rules_list ('/' :: bs) gid measure fwhm)
          (('/' :: bs) ++ ("/figures/".toList ++ f)))
      = applyRules (rules_list ('/' :: bs) gid measure fwhm)
          (('/' :: bs) ++ ("/figures/".toList ++ f)) := by
  rw [pass_figures bs gid measure f fwhm hf]
  exact second_pass_flat bs gid measure "/".toList f fwhm (by decide) hf

theorem idem_mask (bs gid measure f : List Char) (fwhm : Option Int)
    (hf : countSlash f = 0) :
    applyRules (rules_list ('/' :: bs) gid measure fwhm)
        (applyRules (rules_list ('/' :: bs) gid measure fwhm)
          (('/' :: bs) ++ ("/mask/".toList ++ f)))
      = applyRules (rules_list ('/' :: bs) gid measure fwhm)
          (('/' :: bs) ++ ("/mask/".toList ++ f)) := by
  have h := pass_mask bs gid measure f fwhm hf
  rw [h]
  exact h

theorem idem_tsv (bs gid measure f : List Char) (fwhm : Option Int)
    (hg : countSlash gid = 0) (hf : countSlash f = 0) :
    applyRules (rules_list ('/' :: bs) gid measure fwhm)
        (applyRules (rules_list ('/' :: bs) gid measure fwhm)
          (('/' :: bs) ++ ("/tsv_file/".toList ++ f)))
      = applyRules (rules_list ('/' :: bs) gid measure fwhm)
          (('/' :: bs) ++ ("/tsv_file/".toList ++ f)) := by
  rw [pass_tsv bs gid measure f fwhm hg hf]
  exact tsv_second bs gid measure fwhm hg

theorem idem_resels (bs gid measure f : List Char) (fwhm : Option Int)
    (hg : countSlash gid = 0) (hf : countSlash f = 0) :
    applyRules (rules_list ('/' :: bs) gid measure fwhm)
        (applyRules (rules_list ('/' :: bs) gid measure fwhm)
          (('/' :: bs) ++ ("/resels_per_voxels/".toList ++ f)))
      = applyRules (rules_list ('/' :: bs) gid measure fwhm)
          (('/' :: bs) ++ ("/resels_per_voxels/".toList ++ f)) := by
  cases hA : matchesFront (regexToks "resels_per_voxel.nii".toList) f with
  | true =>
    rw [pass_resels_hit bs gid measure f fwhm hA hg hf]
    refine second_pass_flat bs gid measure
      ("/".toList ++ (gid ++ "_RPV.nii".toList))
      (f.drop "resels_per_voxel.nii".toList.length) fwhm ?_ ?_
    · rw [countSlash_append, countSlash_append, hg]
      decide
    · have := countSlash_drop_le "resels_per_voxel.nii".toList.length f
      omega
  | false =>
    have h := pass_resels_miss bs gid measure f fwhm hA hf
    rw [h]
    exact h

theorem idem_regression (bs gid measure f : List Char) (fwhm : Option Int)
    (hg : countSlash gid = 0) (hme : countSlash measure = 0)
    (hw : countSlash (fwhmStr fwhm) = 0) (hf : countSlash f = 0) :
    applyRules (rules_list ('/' :: bs) gid measure fwhm)
        (applyRules (rules_list ('/' :: bs) gid measure fwhm)
          (('/' :: bs) ++ ("/regression_coeff/".toList ++ f)))
      = applyRules (rules_list ('/' :: bs) gid measure fwhm)
          (('/' :: bs) ++ ("/regression_coeff/".toList ++ f)) := by
  cases hs : lastSuf (regexToks ".nii".toList) f with
  | some k =>
    rw [pass_regression_hit bs gid measure f fwhm k hs hf]
    apply applyRules_rules_id
    simp only [countSlash_append, countSlash_base]
    have h1 := countSlash_take_le k f
    have h2 := countSlash_drop_le (k + (regexToks ".nii".toList).length) f
    have c1 : countSlash "/".toList = 1 := by decide
    have c2 : countSlash "_covariate-".toList = 0 := by decide
    have c3 : countSlash "_measure-".toList = 0 := by decide
    have c4 : countSlash "_fwhm-".toList = 0 := by decide
    have c5 : countSlash "_regressionCoefficient.nii".toList = 0 := by decide
    omega
  | none =>
    have h := pass_regression_miss bs gid measure f fwhm hs hf
    rw [h]
    exact h

/-- C5: for every produced path — a file placed by the datasink in one
of its nine port directories, with a slash-free file name — applying
the full conditioned rewrite-rule set twice gives the same path set as
applying it once (re-application is a no-op).  The base directory is an
absolute path and the group id, measure label and rendered smoothing
width contain no slash; both the null-width (empty) and the truthy
(eight-rule) conditioned sets are covered. -/
theorem claim_C5_idempotent (bs gid measure f : List Char)
    (fwhm : Option Int) (dir : String)
    (hd : dir ∈ produced_dirs)
    (hg : countSlash gid = 0) (hme : countSlash measure = 0)
    (hw : countSlash (fwhmStr fwhm) = 0) (hf : countSlash f = 0) :
    applyRules (regexp_substitutions ('/' :: bs) gid measure fwhm)
      (applyRules (regexp_substitutions ('/' :: bs) gid measure fwhm)
        (('/' :: bs) ++ ("/".toList ++ (dir.toList ++ ("/".toList ++ f)))))
    = applyRules (regexp_substitutions ('/' :: bs) gid measure fwhm)
        (('/' :: bs) ++ ("/".toList ++ (dir.toList ++ ("/".toList ++ f)))) := by
  cases htr : pyTruthyFwhm fwhm with
  | false => simp [regexp_substitutions, htr, applyRules_nil]
  | true =>
    simp only [regexp_substitutions, htr, if_true]
    simp only [produced_dirs, List.mem_cons, List.not_mem_nil, or_false] at hd
    rcases hd with rfl | rfl | rfl | rfl | rfl | rfl | rfl | rfl | rfl
    · exact idem_spm1 bs gid measure f fwhm hf
    · exact idem_spm2 bs gid measure f fwhm hf
    · exact idem_contrasts bs gid measure f fwhm hf
    · exact idem_resels bs gid measure f fwhm hg hf
    · exact idem_mask bs gid measure f fwhm hf
    · exact idem_variance bs gid measure f fwhm hf
    · exact idem_tsv bs gid measure f fwhm hg hf
    · exact idem_figures bs gid measure f fwhm hf
    · exact idem_regression bs gid measure f fwhm hg hme hw hf

/-- Witness for C5 at a concrete produced path. -/
theorem claim_C5_idempotent_witness :
    applyRules (regexp_substitutions ('/' :: "b".toList) "g".toList
        "m".toList (some 8))
      (applyRules (regexp_substitutions ('/' :: "b".toList) "g".toList
          "m".toList (some 8))
        (('/' :: "b".toList) ++ ("/".toList ++ ("figures".toList
          ++ ("/".toList ++ "fig.png".toList)))))
    = applyRules (regexp_substitutions ('/' :: "b".toList) "g".toList
        "m".toList (some 8))
        (('/' :: "b".toList) ++ ("/".toList ++ ("figures".toList
          ++ ("/".toList ++ "fig.png".toList)))) :=
  claim_C5_idempotent "b".toList "g".toList "m".toList "fig.png".toList
    (some 8) "figures" (by decide) (by decide) (by decide) (by decide)
    (by decide)

/-! ### Lemmas about the enum coercion -/

theorem coerceEnum_ok_of_succeeds (valid : String → Bool) (n : String)
    (x : EnumOrNone) (h : coerceSucceeds valid x = true) :
    coerceEnum valid n x = Except.ok (coerceVal x) := by
  cases x with
  | null => rfl
  | enum s => rfl
  | raw s =>
    simp only [coerceSucceeds, Bool.or_eq_true, decide_eq_true_eq] at h
    by_cases he : s = ""
    · simp [coerceEnum, coerceVal, he]
    · have hv : valid s = true := by
        rcases h with h | h
        · exact absurd h he
        · exact h
      simp [coerceEnum, coerceVal, he, hv]

theorem coerceEnum_error_shape (valid : String → Bool) (n : String)
    (x : EnumOrNone) (e : PyErr)
    (h : coerceEnum valid n x = Except.error e) :
    ∃ s, e = PyErr.valueError ("'" ++ s ++ "' is not a valid " ++ n) := by
  cases x with
  | null => simp [coerceEnum] at h
  | enum s => simp [coerceEnum] at h
  | raw s =>
    simp only [coerceEnum] at h
    split at h
    · simp at h
    · split at h
      · simp at h
      · exact ⟨s, (Except.error.inj h).symm⟩

/-! ### Claim theorems for the remaining claims -/

/-- C1 (counterexample): with a null smoothing width the claim fails —
it asserts that the participants-table relocation (among others) is
still constructed and applied, but the installed rule set is empty and
the tsv path is left unchanged instead of moving to
`../<gid>_participants.tsv`. -/
theorem claim_C1_counterexample :
    regexp_substitutions sampleBase sampleGid sampleMeasure none = []
    ∧ applyRules (regexp_substitutions sampleBase sampleGid sampleMeasure none)
        (sampleBase ++ "/tsv_file/participants.tsv".toList)
      = sampleBase ++ "/tsv_file/participants.tsv".toList
    ∧ sampleBase ++ "/tsv_file/participants.tsv".toList
      ≠ sampleBase ++ "/../".toList ++ sampleGid
          ++ "_participants.tsv".toList := by
  refine ⟨rfl, rfl, ?_⟩
  decide

/-- C1 (amended): when the smoothing width is null, the entire
rewrite-rule set is omitted — `_build_output_node` installs no regexp
substitutions at all (the whole list sits under
`if self.parameters["full_width_at_half_maximum"]:`), so every produced
path, the participants table and RPV/mask files included, keeps its
original name and location. -/
theorem claim_C1_all_rules_omitted (base gid measure : List Char) :
    regexp_substitutions base gid measure none = []
    ∧ ∀ s : List Char,
        applyRules (regexp_substitutions base gid measure none) s = s :=
  ⟨rfl, fun _ => rfl⟩

/-- C10: a smoothing width supplied as the number 0 is falsy in Python,
so `_build_output_node` installs exactly the same (empty) substitution
list as for null — the guard is the value's truthiness, not a
comparison with `None`. -/
theorem claim_C10_zero_fwhm (base gid measure : List Char) :
    regexp_substitutions base gid measure (some 0)
      = regexp_substitutions base gid measure none
    ∧ regexp_substitutions base gid measure (some 0) = [] :=
  ⟨rfl, rfl⟩

/-- C3 (code bug): applying the full rule set (width 8) to the two
known produced paths renames the resels-per-voxel file to
`<gid>_RPV.nii`, but leaves the inclusion-mask file untouched: the mask
pattern is built from `"mask "` with a trailing space (line 210) and
never matches `.../mask/included_voxel_mask.nii`. -/
theorem claim_C3_rpv_renamed_mask_untouched :
    applyRules
        (regexp_substitutions sampleBase sampleGid sampleMeasure (some 8))
        (sampleBase ++ "/resels_per_voxels/resels_per_voxel.nii".toList)
      = sampleBase ++ "/".toList ++ sampleGid ++ "_RPV.nii".toList
    ∧ applyRules
        (regexp_substitutions sampleBase sampleGid sampleMeasure (some 8))
        (sampleBase ++ "/mask/included_voxel_mask.nii".toList)
      = sampleBase ++ "/mask/included_voxel_mask.nii".toList := by
  constructor <;> decide

/-- C4 (code bug): the output-node port carrying the contrast artifacts
is named `contrasts` in both connection lists (lines 262 and 464) while
`get_output_fields` declares `contrast`; every other used port is
declared. -/
theorem claim_C4_contrasts_port_undeclared :
    ("contrasts" ∈ core_output_ports ∧ "contrasts" ∈ sink_output_ports
      ∧ "contrasts" ∉ get_output_fields)
    ∧ (∀ s ∈ core_output_ports, s = "contrasts" ∨ s ∈ get_output_fields)
    ∧ (∀ s ∈ sink_output_ports, s = "contrasts" ∨ s ∈ get_output_fields) := by
  decide

/-- C6: multi-valued stage outputs are consumed at fixed positional
indices — 0 and 1 of `spm_T_maps`, and 0, 1, 2 of `other_spm_files` in
the order variance-of-error, resels-per-voxel, inclusion-mask — and
`_getter` raises `IndexError` whenever the index is at least the list
length (never padding); in range it returns exactly the element. -/
theorem claim_C6_fixed_index_splicing (files : List String) (idx : Nat)
    (h : files.length ≤ idx) :
    ((output_splices.filterMap fun x =>
        if x.1 = "spm_T_maps" then x.2.1 else none) = [0, 1]
      ∧ (output_splices.filterMap fun x =>
          if x.1 = "other_spm_files" then some x.2 else none)
        = [(some 0, "variance_of_error"), (some 1, "resels_per_voxels"),
           (some 2, "mask")])
    ∧ getter files idx
        = Except.error (PyErr.indexError "list index out of range")
    ∧ ∀ (g : List String) (j : Nat) (hj : j < g.length),
        getter g j = Except.ok (g.get ⟨j, hj⟩) := by
  refine ⟨⟨by decide, by decide⟩, ?_, ?_⟩
  · simp [getter, List.getElem?_eq_none h]
  · intro g j hj
    simp [getter, List.getElem?_eq_getElem hj]

/-- Witness for C6: requesting index 2 from a two-element
statistical-map list fails with the index error. -/
theorem claim_C6_fixed_index_splicing_witness :
    getter ["spmT_0001.nii", "spmT_0002.nii"] 2
      = Except.error (PyErr.indexError "list index out of range") :=
  (claim_C6_fixed_index_splicing ["spmT_0001.nii", "spmT_0002.nii"] 2
    (by decide)).2.1

/-- C9: a parameter bag missing `orig_input_data_volume` fails with the
`KeyError` naming that key; with it present but `contrast` missing, the
`KeyError` names `contrast`; with both present, resolution never fails
with a `KeyError`. -/
theorem claim_C9_mandatory_keys (validTracer validSuvr : String → Bool)
    (p : ParamBag) :
    (p.orig_input_data_volume = none →
      check_pipeline_parameters validTracer validSuvr p
        = Except.error (PyErr.keyError
        "Missing compulsory orig_input_data_volume key in pipeline parameter."))
    ∧ (p.orig_input_data_volume.isSome → p.contrast = none →
      check_pipeline_parameters validTracer validSuvr p
        = Except.error (PyErr.keyError
        "Missing compulsory contrast key in pipeline parameter."))
    ∧ (p.orig_input_data_volume.isSome → p.contrast.isSome →
      ∀ m : String,
        check_pipeline_parameters validTracer validSuvr p
          ≠ Except.error (PyErr.keyError m)) := by
  refine ⟨?_, ?_, ?_⟩
  · intro h
    simp [check_pipeline_parameters, h]
  · intro h1 h2
    obtain ⟨v1, hv1⟩ := Option.isSome_iff_exists.mp h1
    simp [check_pipeline_parameters, hv1, h2]
  · intro h1 h2 m hcon
    obtain ⟨v1, hv1⟩ := Option.isSome_iff_exists.mp h1
    obtain ⟨v2, hv2⟩ := Option.isSome_iff_exists.mp h2
    simp only [check_pipeline_parameters, hv1, hv2, Option.isNone_some,
      Bool.false_eq_true, if_false] at hcon
    cases hA : coerceEnum validTracer "Tracer"
        (p.acq_label.getD EnumOrNone.null) with
    | error e =>
      obtain ⟨s0, rfl⟩ :=
        coerceEnum_error_shape validTracer "Tracer" _ e hA
      rw [hA] at hcon
      simp at hcon
    | ok a =>
      rw [hA] at hcon
      cases hS : coerceEnum validSuvr "SUVRReferenceRegion"
          (p.suvr_reference_region.getD EnumOrNone.null) with
      | error e =>
        obtain ⟨s0, rfl⟩ :=
          coerceEnum_error_shape validSuvr "SUVRReferenceRegion" _ e hS
        rw [hS] at hcon
        simp at hcon
      | ok r =>
        rw [hS] at hcon
        simp only [] at hcon
        split at hcon
        · simp at hcon
        · simp at hcon

/-- Witness for C9: the empty bag fails naming
`orig_input_data_volume`. -/
theorem claim_C9_mandatory_keys_witness :
    check_pipeline_parameters (fun _ => true) (fun _ => true) {}
      = Except.error (PyErr.keyError
      "Missing compulsory orig_input_data_volume key in pipeline parameter.") :=
  (claim_C9_mandatory_keys (fun _ => true) (fun _ => true) {}).1 rfl

/-- C8: with the mandatory keys present and the (truthiness-guarded)
enum coercions succeeding — otherwise the `KeyError` or the
enumeration `ValueError` of lines 31-38 preempts the numeric check —
resolution fails with the cluster-threshold `ClinicaException`
carrying the offending value exactly when the (defaulted) threshold
lies outside `[0, 1]`; the boundary values are accepted and resolution
returns the defaulted bag. -/
theorem claim_C8_cluster_threshold (validTracer validSuvr : String → Bool)
    (p : ParamBag)
    (h1 : p.orig_input_data_volume.isSome) (h2 : p.contrast.isSome)
    (hA : coerceSucceeds validTracer (p.acq_label.getD EnumOrNone.null) = true)
    (hS : coerceSucceeds validSuvr
      (p.suvr_reference_region.getD EnumOrNone.null) = true) :
    (check_pipeline_parameters validTracer validSuvr p
        = Except.error (PyErr.clinicaException
            (clusterMsg (p.cluster_threshold.getD (1 / 1000))))
      ↔ (p.cluster_threshold.getD (1 / 1000) < 0
          ∨ p.cluster_threshold.getD (1 / 1000) > 1))
    ∧ (0 ≤ p.cluster_threshold.getD (1 / 1000) →
        p.cluster_threshold.getD (1 / 1000) ≤ 1 →
        check_pipeline_parameters validTracer validSuvr p
          = Except.ok (resolveDefaults p
              (coerceVal (p.acq_label.getD EnumOrNone.null))
              (coerceVal (p.suvr_reference_region.getD EnumOrNone.null)))) := by
  obtain ⟨v1, hv1⟩ := Option.isSome_iff_exists.mp h1
  obtain ⟨v2, hv2⟩ := Option.isSome_iff_exists.mp h2
  have hcA := coerceEnum_ok_of_succeeds validTracer "Tracer" _ hA
  have hcS := coerceEnum_ok_of_succeeds validSuvr "SUVRReferenceRegion" _ hS
  by_cases hrange : p.cluster_threshold.getD (1 / 1000) < 0
      ∨ p.cluster_threshold.getD (1 / 1000) > 1
  · have hcheck : check_pipeline_parameters validTracer validSuvr p
        = Except.error (PyErr.clinicaException
            (clusterMsg (p.cluster_threshold.getD (1 / 1000)))) := by
      simp only [check_pipeline_parameters, hv1, hv2, Option.isNone_some,
        Bool.false_eq_true, if_false, hcA, hcS]
      exact if_pos hrange
    refine ⟨⟨fun _ => hrange, fun _ => hcheck⟩, ?_⟩
    intro ha hb
    exfalso
    rcases hrange with hr | hr
    · exact absurd ha (not_le.mpr hr)
    · exact absurd hb (not_le.mpr hr)
  · have hcheck : check_pipeline_parameters validTracer validSuvr p
        = Except.ok (resolveDefaults p
            (coerceVal (p.acq_label.getD EnumOrNone.null))
            (coerceVal (p.suvr_reference_region.getD EnumOrNone.null))) := by
      simp only [check_pipeline_parameters, hv1, hv2, Option.isNone_some,
        Bool.false_eq_true, if_false, hcA, hcS]
      exact if_neg hrange
    refine ⟨⟨?_, fun hr => absurd hr hrange⟩, fun _ _ => hcheck⟩
    intro hcon
    rw [hcheck] at hcon
    simp at hcon

/-- Parameter bag with an out-of-range cluster threshold. -/
def pC8bad : ParamBag :=
  { orig_input_data_volume := some "t1-volume", contrast := some "group",
    cluster_threshold := some 2 }

/-- Parameter bag with the boundary cluster threshold 1. -/
def pC8one : ParamBag :=
  { orig_input_data_volume := some "t1-volume", contrast := some "group",
    cluster_threshold := some 1 }

/-- Witness for C8: threshold 2 is rejected with the exception carrying
the value, the boundary value 1 is accepted. -/
theorem claim_C8_cluster_threshold_witness :
    check_pipeline_parameters (fun _ => true) (fun _ => true) pC8bad
      = Except.error (PyErr.clinicaException
          (clusterMsg (pC8bad.cluster_threshold.getD (1 / 1000))))
    ∧ check_pipeline_parameters (fun _ => true) (fun _ => true) pC8one
      = Except.ok (resolveDefaults pC8one
          (coerceVal (pC8one.acq_label.getD EnumOrNone.null))
          (coerceVal (pC8one.suvr_reference_region.getD EnumOrNone.null))) :=
  ⟨(claim_C8_cluster_threshold (fun _ => true) (fun _ => true) pC8bad
      rfl rfl rfl rfl).1.mpr (by decide),
   (claim_C8_cluster_threshold (fun _ => true) (fun _ => true) pC8one
      rfl rfl rfl rfl).2 (by decide) (by decide)⟩

/-- C7: with primary input `custom-pipeline`, an absent or empty
`custom_file` fails with the missing-custom-file `ClinicaException`; a
non-empty pattern resolves with the smoothing width set to null and a
descriptor carrying the literal pattern. -/
theorem claim_C7_custom_pipeline (p : ResolvedParams)
    (h : p.orig_input_data_volume = "custom-pipeline") :
    ((p.custom_file = none ∨ p.custom_file = some "") →
      build_input_node p = Except.error (PyErr.clinicaException
        "Custom pipeline was selected but no 'custom_file' was specified."))
    ∧ (∀ cf : String, p.custom_file = some cf → cf ≠ "" →
      build_input_node p
        = Except.ok ({ p with full_width_at_half_maximum := none },
            InformationDict.custom cf "custom file provided by user")) := by
  constructor
  · rintro (hc | hc) <;> simp [build_input_node, h, hc]
  · intro cf hc hne
    simp [build_input_node, h, hc, hne]

/-- Resolved parameters selecting the custom pipeline with an absent
pattern. -/
def pC7missing : ResolvedParams :=
  { orig_input_data_volume := "custom-pipeline", contrast := "group",
    group_label_dartel := "*", full_width_at_half_maximum := some 8,
    acq_label := EnumOrNone.null, suvr_reference_region := EnumOrNone.null,
    use_pvc_data := false, measure_label := none, custom_file := none,
    cluster_threshold := 1 / 1000 }

/-- Resolved parameters selecting the custom pipeline with a pattern. -/
def pC7given : ResolvedParams :=
  { pC7missing with custom_file := some "*_graymatter.nii" }

/-- Witness for C7 at both branches. -/
theorem claim_C7_custom_pipeline_witness :
    build_input_node pC7missing = Except.error (PyErr.clinicaException
      "Custom pipeline was selected but no 'custom_file' was specified.")
    ∧ build_input_node pC7given
      = Except.ok ({ pC7given with full_width_at_half_maximum := none },
          InformationDict.custom "*_graymatter.nii"
            "custom file provided by user") :=
  ⟨(claim_C7_custom_pipeline pC7missing rfl).1 (Or.inl rfl),
   (claim_C7_custom_pipeline pC7given rfl).2 "*_graymatter.nii" rfl
     (by decide)⟩

/-- Resolved parameters selecting pet-volume with a coerced tracer but
no reference region — the input C2 claims raises the
incomplete-parameters error. -/
def pC2 : ResolvedParams :=
  { orig_input_data_volume := "pet-volume", contrast := "group",
    group_label_dartel := "*", full_width_at_half_maximum := some 8,
    acq_label := EnumOrNone.enum "18FFDG",
    suvr_reference_region := EnumOrNone.null, use_pvc_data := false,
    measure_label := none, custom_file := none,
    cluster_threshold := 1 / 1000 }

/-- C2 (code bug): with pet-volume input and a missing reference
region, input selection raises `AttributeError` while interpolating
`suvr_reference_region.value` into the error message (`None` has no
`.value`), so the intended `ValueError` is never constructed; no
`ValueError` at all is raised on this path. -/
theorem claim_C2_attribute_error :
    build_input_node pC2 = Except.error (PyErr.attributeError
      "'NoneType' object has no attribute 'value'")
    ∧ ∀ m : String,
        build_input_node pC2 ≠ Except.error (PyErr.valueError m) := by
  have h1 : build_input_node pC2 = Except.error (PyErr.attributeError
      "'NoneType' object has no attribute 'value'") := rfl
  refine ⟨h1, fun m hm => ?_⟩
  rw [h1] at hm
  simp at hm

end StatisticsVolume
